import Mathlib

/-!
Verification of the EV-charging support chatbot's priority router, diagnostic
catalog and fuzzy matching layer, as a shallow embedding of the Python source
(`chatbot/engine/conversation_manager.py`, `chatbot/engine/diagnostic_engine.py`,
`chatbot/engine/intent_engine.py`, `chatbot/utils/text_utils.py`).

Strings are modelled as `List Char`; Python float scores are modelled as exact
rationals (`ℚ`), with the literals 0.6, 0.4, 0.70 rendered as 3/5, 2/5, 7/10.
Similarity is difflib's `SequenceMatcher.ratio` (total size of the recursively
chosen longest matching blocks, doubled and divided by the combined length);
for the short strings involved here autojunk never applies.  Fallible
collaborators (file loading) enter as an `Except` parameter at the call
boundary.  The router's awaited collaborator calls and session side effects are
reified as an `Event` trace in the order the source issues them.
-/

/-- Python `\s` on ASCII text (the whitespace set used by `str.strip`,
`str.split` and the regexes in `text_utils.py`). -/
def isSpaceChar (c : Char) : Bool :=
  c = ' ' || c = '\t' || c = '\n' || c = '\r' || c = Char.ofNat 11 || c = Char.ofNat 12

/-- Python regex `\w` on ASCII text: letters, digits, underscore. -/
def isWordChar (c : Char) : Bool :=
  c.isAlphanum || c = '_'

/-- Python `str.strip()`: drop leading and trailing whitespace. -/
def stripWS (l : List Char) : List Char :=
  ((l.dropWhile isSpaceChar).reverse.dropWhile isSpaceChar).reverse

theorem dropWhile_length_le (p : Char → Bool) :
    ∀ l : List Char, (l.dropWhile p).length ≤ l.length := by
  intro l
  induction l with
  | nil => simp [List.dropWhile]
  | cons c rest ih =>
    by_cases h : p c = true
    · simp only [List.dropWhile, h]
      exact Nat.le_succ_of_le ih
    · simp only [List.dropWhile, Bool.not_eq_true] at *
      simp [h]

/-- Worker for `collapseWS`: the flag records whether a whitespace run is in
progress (its one emitted space already produced). -/
def collapseWSAux (prevSpace : Bool) : List Char → List Char
  | [] => []
  | c :: rest =>
    if isSpaceChar c then
      if prevSpace then collapseWSAux true rest
      else ' ' :: collapseWSAux true rest
    else c :: collapseWSAux false rest

/-- `re.sub(r'\s+', ' ', text)`: collapse each whitespace run to one space. -/
def collapseWS (l : List Char) : List Char :=
  collapseWSAux false l

/-- `normalize_text` from `text_utils.py`: lowercase, strip, collapse
whitespace runs to single spaces (total, empty input gives empty output). -/
def normalizeText (l : List Char) : List Char :=
  collapseWS (stripWS (l.map Char.toLower))

/-- Python `str.split()` with no argument: whitespace-separated words,
no empties. -/
def splitWords (l : List Char) : List (List Char) :=
  (l.splitOnP isSpaceChar).filter (fun w => w ≠ [])

/-- Whether `pat` is an exact leading segment of `s`. -/
def frontMatch : List Char → List Char → Bool
  | [], _ => true
  | _ :: _, [] => false
  | p :: ps, c :: cs => p = c && frontMatch ps cs

/-- Python's substring test `needle in hay`. -/
def containsSub (needle : List Char) : List Char → Bool
  | [] => frontMatch needle []
  | c :: rest => frontMatch needle (c :: rest) || containsSub needle rest

/-- Length of the longest common leading run of the two lists.  -/
def commonRun : List Char → List Char → Nat
  | a :: as, b :: bs => if a = b then commonRun as bs + 1 else 0
  | _, _ => 0

/-- Scan all suffixes of `b` for the longest run matching a leading run of
`aSuf`; returns `(size, start in b)`, earliest start winning ties (difflib
`find_longest_match` inner loop, no junk). -/
def bestJK (aSuf : List Char) : List Char → Nat → Nat × Nat
  | [], j => (0, j)
  | b :: bs, j =>
    let k := commonRun aSuf (b :: bs)
    let r := bestJK aSuf bs (j + 1)
    if r.1 > k then r else (k, j)

/-- Longest matching block of `a` and `b` as `(size, start in a, start in b)`,
earliest start in `a` then in `b` winning ties (difflib
`find_longest_match`, no junk). -/
def bestIJK : List Char → List Char → Nat → Nat × Nat × Nat
  | [], _, i => (0, i, 0)
  | a :: as, b, i =>
    let p := bestJK (a :: as) b 0
    let r := bestIJK as b (i + 1)
    if r.1 > p.1 then r else (p.1, i, p.2)

/-- Total size of difflib's matching blocks: recursively take the longest
matching block and recurse on the pieces to its left and right
(`get_matching_blocks`).  The fuel argument bounds the recursion depth; it is
at least the combined length, which the recursion never exceeds. -/
def totalMatchedAux : Nat → List Char → List Char → Nat
  | 0, _, _ => 0
  | fuel + 1, a, b =>
    let blk := bestIJK a b 0
    if blk.1 = 0 then 0
    else
      totalMatchedAux fuel (a.take blk.2.1) (b.take blk.2.2) + blk.1 +
        totalMatchedAux fuel (a.drop (blk.2.1 + blk.1)) (b.drop (blk.2.2 + blk.1))

/-- Total matched size `M` used by `SequenceMatcher.ratio`. -/
def totalMatched (a b : List Char) : Nat :=
  totalMatchedAux (a.length + b.length) a b

/-- difflib `SequenceMatcher(None, a, b).ratio()` = `2M / (len a + len b)`
(1.0 when both strings are empty). -/
def simScore (a b : List Char) : ℚ :=
  if a.length + b.length = 0 then 1
  else 2 * (totalMatched a b : ℚ) / ((a.length + b.length : ℕ) : ℚ)

/-- `(span isDigit).1/.2`: the leading digit run and what follows it. -/
def spanDigits (l : List Char) : List Char × List Char :=
  l.span Char.isDigit

/-- Whether the list starts with a regex word character (so that a `\b`
required right before this position fails). -/
def wordNext : List Char → Bool
  | [] => false
  | c :: _ => isWordChar c

/-- Case-insensitively strip the (lowercase) literal `pat` from the front,
returning the remainder on success. -/
def stripCI : List Char → List Char → Option (List Char)
  | [], s => some s
  | _ :: _, [] => none
  | p :: ps, c :: cs => if p = c.toLower then stripCI ps cs else none

/-- Pattern 1 of `extract_error_pattern`, tried at one position:
`(er\d{3,4})\b` case-insensitively (the leading `\b` is checked by the
scanner).  A digit run of length 3 or 4 followed by a non-word character
matches; longer runs fail under backtracking because the character after the
consumed digits is itself a digit. -/
def matchER (s : List Char) : Option (List Char) :=
  match s with
  | c1 :: c2 :: rest =>
    if c1.toLower = 'e' ∧ c2.toLower = 'r' then
      let ds := (spanDigits rest).1
      if (ds.length = 3 ∨ ds.length = 4) ∧ wordNext (spanDigits rest).2 = false then
        some (c1 :: c2 :: ds)
      else none
    else none
  | _ => none

/-- `(\d{1,4})\b` at the current position: a digit run of length 1–4 followed
by a non-word character. -/
def digits14 (s : List Char) : Option (List Char) :=
  let ds := (spanDigits s).1
  if (1 ≤ ds.length ∧ ds.length ≤ 4) ∧ wordNext (spanDigits s).2 = false then some ds
  else none

/-- Pattern 2 at one position: `error\s*(?:code)?\s*(\d{1,4})\b`
case-insensitively; returns the digit group. -/
def matchErrorNum (s : List Char) : Option (List Char) :=
  match stripCI ("error".data) s with
  | none => none
  | some r1 =>
    let s1 := r1.dropWhile isSpaceChar
    let s2 := match stripCI ("code".data) s1 with
      | some r2 => r2.dropWhile isSpaceChar
      | none => s1
    digits14 s2

/-- Pattern 3 at one position: `(e\d{1,4})\b` case-insensitively; returns the
digit group (the transform in `extract_error_pattern` drops the `e`). -/
def matchENum (s : List Char) : Option (List Char) :=
  match s with
  | c :: rest => if c.toLower = 'e' then digits14 rest else none
  | [] => none

/-- Pattern 4 at one position: `(\d{3,4})\b`. -/
def matchNum34 (s : List Char) : Option (List Char) :=
  let ds := (spanDigits s).1
  if (ds.length = 3 ∨ ds.length = 4) ∧ wordNext (spanDigits s).2 = false then some ds
  else none

/-- `re.search` for a pattern that begins with `\b` followed by a word
character: try the matcher at every position whose predecessor is not a word
character, left to right. -/
def scanFor (m : List Char → Option (List Char)) (prevWord : Bool) :
    List Char → Option (List Char)
  | [] => none
  | c :: rest =>
    match (if prevWord then none else m (c :: rest)) with
    | some g => some g
    | none => scanFor m (isWordChar c) rest

/-- Python `str.zfill(3)`: left-pad with zeros to length 3. -/
def zfill3 (ds : List Char) : List Char :=
  List.replicate (3 - ds.length) '0' ++ ds

/-- The context keyword list of `extract_error_pattern` pattern 4. -/
def contextKeywords : List (List Char) :=
  ["error".data, "code".data, "fault".data, "issue".data, "problem".data, "showing".data]

/-- `any(keyword in message.lower() for keyword in context_keywords)`. -/
def hasContextKeyword (message : List Char) : Bool :=
  contextKeywords.any (fun k => containsSub k (message.map Char.toLower))

/-- `re.match(r'^\d{3,4}\s*$', s)`: a digit run of length 3 or 4 followed only
by whitespace. -/
def matchDigits34End (s : List Char) : Bool :=
  ((spanDigits s).1.length = 3 || (spanDigits s).1.length = 4) &&
    (spanDigits s).2.all isSpaceChar

/-- `extract_error_pattern` from `text_utils.py`: the four regex patterns in
order, short-circuiting on the first hit; the bare-number pattern 4 is gated
on the trimmed message's length (≤ 4), the trimmed message being entirely a
3–4 digit number, or a context keyword occurring in the lowercased message. -/
def extractErrorPattern (message : List Char) : Option (List Char) :=
  if message = [] then none
  else
    match scanFor matchER false message with
    | some g => some (g.map Char.toUpper)
    | none =>
      match scanFor matchErrorNum false message with
      | some ds => some ("ER".data ++ zfill3 ds)
      | none =>
        match scanFor matchENum false message with
        | some ds => some ("ER".data ++ zfill3 ds)
        | none =>
          match scanFor matchNum34 false message with
          | some ds =>
            if (stripWS message).length ≤ 4 ∨ matchDigits34End (stripWS message) = true then
              some ds
            else if hasContextKeyword message = true then some ds
            else none
          | none => none

/-- One step of the best-so-far scans in `fuzzy_match_title` and
`_keyword_search`: accept `x` when its score strictly improves on the best and
clears the threshold (`combined_score > best_ratio and combined_score >=
threshold`, resp. `score > best_score and score >= 2`). -/
def amStep {α β : Type} [LinearOrder β] (f : α → β) (thr : β)
    (acc : Option α × β) (x : α) : Option α × β :=
  if f x > acc.2 ∧ f x ≥ thr then (some x, f x) else acc

/-- The token-overlap term of `fuzzy_match_title`'s combined score:
`|wordsOf(query) ∩ wordsOf(title)| / |wordsOf(query)|`, 0 for a wordless
query (both sides already normalized). -/
def wordOverlap (qn tn : List Char) : ℚ :=
  let qw := (splitWords qn).dedup
  if qw = [] then 0
  else ((qw.filter (fun w => w ∈ splitWords tn)).length : ℚ) / (qw.length : ℚ)

/-- The combined score of `fuzzy_match_title` for a (normalized) query against
one candidate title: `ratio * 0.6 + word_overlap * 0.4`. -/
def combinedScore (qn t : List Char) : ℚ :=
  simScore qn (normalizeText t) * (3 / 5) + wordOverlap qn (normalizeText t) * (2 / 5)

/-- `fuzzy_match_title` from `text_utils.py`. -/
def fuzzyMatchTitle (query : List Char) (titles : List (List Char)) (threshold : ℚ) :
    Option (List Char) :=
  if query = [] ∨ titles = [] then none
  else
    (titles.foldl (amStep (combinedScore (normalizeText query)) threshold)
      ((none : Option (List Char)), (0 : ℚ))).1

/-- The stop-word set of `extract_keywords`. -/
def stopWords : List (List Char) :=
  ["the".data, "a".data, "an".data, "and".data, "or".data, "but".data, "in".data,
   "on".data, "at".data, "to".data, "for".data, "of".data, "with".data, "by".data,
   "from".data, "is".data, "it".data, "this".data, "that".data, "i".data, "my".data]

/-- `extract_keywords` from `text_utils.py`: normalized words outside the
stop-word set and longer than 2 characters. -/
def extractKeywords (text : List Char) : List (List Char) :=
  if text = [] then []
  else (splitWords (normalizeText text)).filter (fun w => w ∉ stopWords ∧ 2 < w.length)

/-- One record of `error_codes_complete.json` (fields `Error_Code`, `Tittle`
(sic), `Description`, `Solution`). -/
structure Record where
  errorCode : List Char
  tittle : List Char
  description : List Char
  solutions : List (List Char)
deriving DecidableEq

/-- The flattened view returned by `_format_error_response`. -/
structure DiagResult where
  errorCode : List Char
  title : List Char
  description : List Char
  solutions : List (List Char)
deriving DecidableEq

/-- Python `dict` lookup for a string-keyed dictionary. -/
def dictLookup {α : Type} (k : List Char) : List (List Char × α) → Option α
  | [] => none
  | (k2, v) :: rest => if k2 = k then some v else dictLookup k rest

/-- Python `dict` assignment `d[k] = v`: overwrite in place or append. -/
def dictInsert {α : Type} (k : List Char) (v : α) :
    List (List Char × α) → List (List Char × α)
  | [] => [(k, v)]
  | (k2, v2) :: rest =>
    if k2 = k then (k, v) :: rest else (k2, v2) :: dictInsert k v rest

/-- The state of `DiagnosticEngine`: the loaded record list and the
code-keyed index. -/
structure CatalogState where
  errorCodes : List Record
  errorIndex : List (List Char × Record)
deriving DecidableEq

/-- The pre-load state (`__init__`). -/
def emptyCatalog : CatalogState :=
  { errorCodes := [], errorIndex := [] }

/-- The two exception branches of `load_error_codes`. -/
inductive LoadError where
  | fileNotFound
  | jsonDecodeFailed
deriving DecidableEq

/-- The index-building loop of `load_error_codes`: starting from the engine's
EXISTING index (the source never clears it), insert each record whose
uppercased `Error_Code` is non-empty. -/
def buildIndex (index : List (List Char × Record)) (records : List Record) :
    List (List Char × Record) :=
  records.foldl
    (fun idx r =>
      if r.errorCode.map Char.toUpper ≠ [] then
        dictInsert (r.errorCode.map Char.toUpper) r idx
      else idx)
    index

/-- `load_error_codes`: on a successful parse, replace `error_codes` and add
the new records into the existing `error_index`; on `FileNotFoundError` or
`json.JSONDecodeError`, reset both to empty. -/
def loadErrorCodes (st : CatalogState) (parsed : Except LoadError (List Record)) :
    CatalogState :=
  match parsed with
  | Except.ok records =>
    { errorCodes := records, errorIndex := buildIndex st.errorIndex records }
  | Except.error _ => { errorCodes := [], errorIndex := [] }

/-- `_format_error_response`. -/
def formatErrorResponse (r : Record) : DiagResult :=
  { errorCode := r.errorCode, title := r.tittle,
    description := r.description, solutions := r.solutions }

/-- Python `str.isdigit()` on ASCII: non-empty and all digits. -/
def isDigits (l : List Char) : Bool :=
  !l.isEmpty && l.all Char.isDigit

/-- Python `str.startswith("ER")`. -/
def startsWithER (l : List Char) : Bool :=
  frontMatch ("ER".data) l

/-- `_lookup_by_code`: direct lookup of the uppercased, stripped code, then
the `ER`-prefix toggle (numeric code tries `ER<code>`; `ER`-prefixed code
tries the bare suffix). -/
def lookupByCode (st : CatalogState) (errorCode : List Char) : Option DiagResult :=
  let u := stripWS (errorCode.map Char.toUpper)
  match dictLookup u st.errorIndex with
  | some e => some (formatErrorResponse e)
  | none =>
    if startsWithER u = false ∧ isDigits u = true then
      (dictLookup ("ER".data ++ u) st.errorIndex).map formatErrorResponse
    else if startsWithER u = true then
      (dictLookup (u.drop 2) st.errorIndex).map formatErrorResponse
    else none

/-- `_fuzzy_match_titles` (Stage B): best fuzzy title at threshold 0.6, then
the first record carrying the matched title; the Python `if matched_title:`
truthiness check makes an empty matched title a miss. -/
def fuzzyMatchTitles (st : CatalogState) (query : List Char) : Option DiagResult :=
  match fuzzyMatchTitle query (st.errorCodes.map (fun r => r.tittle)) (3 / 5) with
  | some matched =>
    if matched = [] then none
    else (st.errorCodes.find? (fun r => r.tittle = matched)).map formatErrorResponse
  | none => none

/-- The per-record score of `_keyword_search`: how many extracted keywords
occur as substrings of the normalized description or normalized title. -/
def keywordScore (kws : List (List Char)) (r : Record) : Nat :=
  kws.countP
    (fun k =>
      containsSub k (normalizeText r.description) || containsSub k (normalizeText r.tittle))

/-- `_keyword_search` (Stage C): best-scoring record, requiring at least two
matching keywords. -/
def keywordSearch (st : CatalogState) (query : List Char) : Option DiagResult :=
  let kws := extractKeywords query
  if kws = [] then none
  else
    ((st.errorCodes.foldl (amStep (keywordScore kws) 2)
        ((none : Option Record), (0 : Nat))).1).map formatErrorResponse

/-- Stages B then C of `detect_error_code`, on the normalized message. -/
def detectStage23 (st : CatalogState) (nq : List Char) : Option DiagResult :=
  match fuzzyMatchTitles st nq with
  | some r => some r
  | none => keywordSearch st nq

/-- `detect_error_code`: `None` for an empty message or catalog; else pattern
extraction + exact lookup (Stage A), then fuzzy titles (B), then keyword
search (C). -/
def detectErrorCode (st : CatalogState) (message : List Char) : Option DiagResult :=
  if message = [] ∨ st.errorCodes = [] then none
  else
    match extractErrorPattern message with
    | some code =>
      match lookupByCode st code with
      | some result => some result
      | none => detectStage23 st (normalizeText message)
    | none => detectStage23 st (normalizeText message)

/-- The ordered rule table of `IntentEngine.__init__`. -/
def intentKeywords : List (List Char × List (List Char)) :=
  [("greeting".data,
    ["hello".data, "hi".data, "hey".data, "good morning".data, "good afternoon".data,
     "greetings".data]),
   ("error_report".data,
    ["error".data, "fault".data, "problem".data, "issue".data, "showing".data,
     "displaying".data]),
   ("troubleshoot".data,
    ["troubleshoot".data, "diagnose".data, "fix".data, "solve".data, "repair".data]),
   ("wallet".data,
    ["wallet".data, "balance".data, "refund".data, "transaction".data,
     "payment failed".data, "money".data, "recharge".data, "wallet charge".data,
     "add money".data]),
   ("maintenance".data,
    ["maintenance".data, "service".data, "inspection".data, "check".data]),
   ("support".data,
    ["help".data, "support".data, "assistance".data, "contact".data]),
   ("status".data,
    ["status".data, "working".data, "operational".data, "running".data]),
   ("installation".data,
    ["install".data, "setup".data, "configure".data, "connect".data]),
   ("network".data,
    ["network".data, "wifi".data, "connection".data, "internet".data, "ocpp".data,
     "communication".data]),
   ("payment".data,
    ["payment".data, "billing".data, "cost".data, "price".data, "pay".data]),
   ("usage".data,
    ["how to charge".data, "charge car".data, "charge vehicle".data,
     "start charging".data, "charging guide".data, "how to".data, "guide".data,
     "instructions".data, "manual".data, "how to use".data])]

/-- `IntentEngine._rule_based_detection`: the first intent (in table order)
one of whose keywords occurs in the normalized text. -/
def ruleBasedDetection (nt : List Char) : Option (List Char) :=
  (intentKeywords.find? (fun p => p.2.any (fun kw => containsSub kw nt))).map Prod.fst

/-- `IntentEngine.detect_intent`. -/
def detectIntent (text : List Char) : Option (List Char) :=
  if text = [] then none else ruleBasedDetection (normalizeText text)

/-- `ConversationManager._map_intent_to_node`'s static table. -/
def intentMapping : List (List Char × List Char) :=
  [("greeting".data, "start".data),
   ("error_report".data, "error_reporting".data),
   ("troubleshoot".data, "troubleshooting".data),
   ("wallet".data, "wallet_issues".data),
   ("maintenance".data, "maintenance".data),
   ("support".data, "support".data),
   ("status".data, "status_check".data),
   ("installation".data, "installation_guide".data),
   ("network".data, "network_help".data),
   ("payment".data, "wallet_issues".data),
   ("usage".data, "user_guide".data)]

/-- `_map_intent_to_node`: table lookup with default `start`. -/
def mapIntentToNode (intent : List Char) : List Char :=
  (dictLookup intent intentMapping).getD ("start".data)

/-- The static option-text table of `_map_option_to_node`, in source order. -/
def optionMapping : List (List Char × List Char) :=
  [("report error code".data, "error_reporting".data),
   ("wallet related issues".data, "wallet_issues".data),
   ("troubleshoot issue".data, "troubleshooting".data),
   ("maintenance guide".data, "maintenance".data),
   ("contact support".data, "support".data),
   ("back to menu".data, "start".data),
   ("other error code".data, "other_error_code".data),
   ("balance not updating".data, "balance_not_updating".data),
   ("payment failed".data, "payment_failed".data),
   ("refund issues".data, "refund_issues".data),
   ("transaction history".data, "transaction_history".data),
   ("charging not starting".data, "troubleshooting".data),
   ("connection issues".data, "troubleshooting".data),
   ("display problems".data, "troubleshooting".data),
   ("physical damage".data, "troubleshooting".data),
   ("✅ yes, issue resolved".data, "solution_resolved".data),
   ("yes, issue resolved".data, "solution_resolved".data),
   ("✅ yes, this helped".data, "solution_resolved".data),
   ("yes, this helped".data, "solution_resolved".data),
   ("yes".data, "solution_resolved".data),
   ("❌ no, still having issues".data, "solution_not_resolved".data),
   ("no, still having issues".data, "solution_not_resolved".data),
   ("❌ no, still have questions".data, "solution_not_resolved".data),
   ("no, still have questions".data, "solution_not_resolved".data),
   ("❌ no, still need help".data, "solution_not_resolved".data),
   ("no, still need help".data, "solution_not_resolved".data),
   ("❌ no, need more guidance".data, "solution_not_resolved".data),
   ("no, need more guidance".data, "solution_not_resolved".data),
   ("no".data, "solution_not_resolved".data),
   ("no, i\x27m all set".data, "done_chatting".data),
   ("no i\x27m all set".data, "done_chatting".data),
   ("i\x27m all set".data, "done_chatting".data),
   ("all set".data, "done_chatting".data),
   ("report another error".data, "report_another_error".data)]

/-- `re.match(r'^er\d{3,4}\s*-', s, re.IGNORECASE)`: the error-option-label
gate of `_map_option_to_node`.  Under backtracking a digit run of length 3 or
4 can match, and after the consumed digits whitespace then a dash must
follow. -/
def erOptionPattern (s : List Char) : Bool :=
  match s with
  | c1 :: c2 :: rest =>
    (decide (c1.toLower = 'e') && decide (c2.toLower = 'r')) &&
      ((decide ((spanDigits rest).1.length = 3) || decide ((spanDigits rest).1.length = 4)) &&
        (match (spanDigits rest).2.dropWhile isSpaceChar with
         | '-' :: _ => true
         | _ => false))
  | _ => false

/-- `_map_option_to_node`: lowercase+strip the option text; texts matching the
error-option-label pattern deliberately fall through (return `None`); else
look the normalized text up in the static table. -/
def mapOptionToNode (optionText : List Char) : Option (List Char) :=
  let normalized := stripWS (optionText.map Char.toLower)
  if erOptionPattern normalized = true then none
  else dictLookup normalized optionMapping

/-- The payment keyword set of `_is_payment_intent`. -/
def paymentKeywords : List (List Char) :=
  ["payment".data, "wallet".data, "balance".data, "refund".data, "billing".data]

/-- `_is_payment_intent`: some word of the normalized message has similarity
at least 0.70 with some payment keyword (the nested loops return on the first
qualifying pair). -/
def isPaymentIntent (message : List Char) : Bool :=
  (splitWords (normalizeText message)).any
    (fun w => paymentKeywords.any (fun kw => decide (simScore w kw ≥ 7 / 10)))

/-- The discriminator of `ChatResponse.type`. -/
inductive RType where
  | flow
  | diagnostic
  | ai
deriving DecidableEq

/-- A history role. -/
inductive Role where
  | user
  | assistant
deriving DecidableEq

/-- The `ChatResponse` model (fields as in `response_models.py`). -/
structure ChatResponse where
  rtype : RType
  text : List Char
  errorCode : Option (List Char)
  description : Option (List Char)
  solutions : Option (List (List Char))
  options : Option (List (List Char))
  steps : Option (List (List Char))
  action : Option (List Char)
  sessionId : List Char
deriving DecidableEq

/-- One flow node as stored in the flows dictionary. -/
structure FlowNode where
  text : Option (List Char)
  options : Option (List (List Char))
  steps : Option (List (List Char))
  action : Option (List Char)
deriving DecidableEq

/-- The awaited collaborator calls and session side effects of one turn, in
program order. -/
inductive Event where
  | historyAppend (role : Role) (content : List Char)
  | sessionUpdate (node : List Char)
  | diagnosticDetect (message : List Char)
  | intentDetect (message : List Char)
  | flowGet (nodeId : List Char)
  | aiGenerate (message : List Char)
deriving DecidableEq

/-- Calls made on the session collaborator (history appends and
current-node updates). -/
def isSessionEvent : Event → Bool
  | Event.historyAppend _ _ => true
  | Event.sessionUpdate _ => true
  | _ => false

/-- The session context the router reads: `session_id` and the possibly
absent `current_node`. -/
structure Session where
  sessionId : List Char
  currentNode : Option (List Char)

/-- The router's environment: diagnostic catalog state, flows dictionary, and
the external text generator (`ai_service.generate_response`). -/
structure Env where
  cat : CatalogState
  flows : List (List Char × FlowNode)
  gen : List Char → List Char

/-- The default node id `"start"`. -/
def startNode : List Char := "start".data

/-- The fixed payment routing target `"wallet_issues"`. -/
def walletNode : List Char := "wallet_issues".data

/-- The literal fallback message `"Hello"`. -/
def helloMsg : List Char := "Hello".data

/-- The hard-coded node `FlowEngine.get_node` falls back to when even the
`start` node is missing. -/
def defaultFlowNode : FlowNode :=
  { text := some ("How can I assist you with EV charging today?".data),
    options := none, steps := none, action := none }

/-- `FlowEngine.get_node`: the requested node, else the `start` node, else the
hard-coded default. -/
def getFlowNode (flows : List (List Char × FlowNode)) (nodeId : List Char) : FlowNode :=
  match dictLookup nodeId flows with
  | some node => node
  | none => (dictLookup startNode flows).getD defaultFlowNode

/-- `_generate_flow_response`. -/
def generateFlowResponse (flows : List (List Char × FlowNode)) (sessionId nodeId : List Char) :
    ChatResponse :=
  { rtype := RType.flow,
    text := (getFlowNode flows nodeId).text.getD ("I\x27m not sure how to respond.".data),
    errorCode := none, description := none, solutions := none,
    options := (getFlowNode flows nodeId).options,
    steps := (getFlowNode flows nodeId).steps,
    action := (getFlowNode flows nodeId).action,
    sessionId := sessionId }

/-- The fixed follow-up options attached to every diagnostic response. -/
def followUpOptions : List (List Char) :=
  ["✅ Yes, issue resolved".data, "❌ No, still having issues".data, "Back to Menu".data]

/-- `_generate_diagnostic_response`. -/
def generateDiagnosticResponse (sessionId : List Char) (d : DiagResult) : ChatResponse :=
  { rtype := RType.diagnostic,
    text := "I found information about ".data ++ d.errorCode ++ " - ".data ++ d.title ++
      ". Please review the solutions below.".data,
    errorCode := some d.errorCode, description := some d.description,
    solutions := some d.solutions, options := some followUpOptions,
    steps := none, action := none, sessionId := sessionId }

/-- `_generate_ai_response`. -/
def generateAiResponse (gen : List Char → List Char) (sessionId message : List Char) :
    ChatResponse :=
  { rtype := RType.ai, text := gen message, errorCode := none, description := none,
    solutions := none, options := none, steps := none, action := none,
    sessionId := sessionId }

/-- Python truthiness of an optional string: `None` and the empty string are
both falsy (every `if message:` / `if action:` gate in the router). -/
def truthy (s : Option (List Char)) : Option (List Char) :=
  match s with
  | some m => if m = [] then none else some m
  | none => none

/-- STEP 4 of `process_message` (AI fallback): generate from the message (or
the literal "Hello"), re-persist the unchanged current node. -/
def aiStage (env : Env) (sess : Session) (currentNode : List Char)
    (msgT : Option (List Char)) : ChatResponse × List Event :=
  (generateAiResponse env.gen sess.sessionId (msgT.getD helloMsg),
   [Event.aiGenerate (msgT.getD helloMsg), Event.sessionUpdate currentNode])

/-- STEP 3 of `process_message` (intent detection), falling through to the AI
stage. -/
def intentStage (env : Env) (sess : Session) (currentNode : List Char)
    (msgT : Option (List Char)) : ChatResponse × List Event :=
  match msgT with
  | some m =>
    match detectIntent m with
    | some intent =>
      (generateFlowResponse env.flows sess.sessionId (mapIntentToNode intent),
       [Event.intentDetect m, Event.flowGet (mapIntentToNode intent),
        Event.sessionUpdate (mapIntentToNode intent)])
    | none =>
      ((aiStage env sess currentNode msgT).1,
       Event.intentDetect m :: (aiStage env sess currentNode msgT).2)
  | none => aiStage env sess currentNode msgT

/-- STEP 2 of `process_message` (explicit action), falling through to intent
detection. -/
def actionStage (env : Env) (sess : Session) (currentNode : List Char)
    (msgT acT : Option (List Char)) : ChatResponse × List Event :=
  match acT with
  | some a =>
    (generateFlowResponse env.flows sess.sessionId a,
     [Event.flowGet a, Event.sessionUpdate a])
  | none => intentStage env sess currentNode msgT

/-- STEP 1.5 of `process_message` (fuzzy payment check), falling through to
the action stage. -/
def paymentStage (env : Env) (sess : Session) (currentNode : List Char)
    (msgT acT : Option (List Char)) : ChatResponse × List Event :=
  match msgT with
  | some m =>
    if isPaymentIntent m = true then
      (generateFlowResponse env.flows sess.sessionId walletNode,
       [Event.flowGet walletNode, Event.sessionUpdate walletNode])
    else actionStage env sess currentNode msgT acT
  | none => actionStage env sess currentNode msgT acT

/-- STEP 1 of `process_message` (diagnostic detection), falling through to the
payment stage; the detector is awaited whenever a (truthy) message exists. -/
def diagStage (env : Env) (sess : Session) (currentNode : List Char)
    (msgT acT : Option (List Char)) : ChatResponse × List Event :=
  match msgT with
  | some m =>
    match detectErrorCode env.cat m with
    | some d =>
      (generateDiagnosticResponse sess.sessionId d,
       [Event.diagnosticDetect m, Event.sessionUpdate currentNode])
    | none =>
      ((paymentStage env sess currentNode msgT acT).1,
       Event.diagnosticDetect m :: (paymentStage env sess currentNode msgT acT).2)
  | none => paymentStage env sess currentNode msgT acT

/-- STEP 0.5 of `process_message` (direct option-button mapping), falling
through to diagnostic detection. -/
def optionStage (env : Env) (sess : Session) (currentNode : List Char)
    (msgT acT : Option (List Char)) : ChatResponse × List Event :=
  match msgT with
  | some m =>
    match mapOptionToNode m with
    | some n =>
      (generateFlowResponse env.flows sess.sessionId n,
       [Event.flowGet n, Event.sessionUpdate n])
    | none => diagStage env sess currentNode msgT acT
  | none => diagStage env sess currentNode msgT acT

/-- The user-message history append issued before any stage runs (gated on
message truthiness). -/
def userEvents (msgT : Option (List Char)) : List Event :=
  match msgT with
  | some m => [Event.historyAppend Role.user m]
  | none => []

/-- `ConversationManager.process_message` as decision + event trace: read the
session's current node (default `start`), append the truthy user message to
history, run stages 0.5–4, and finally append the response text as the
assistant history entry (`_save_and_return_response`). -/
def processMessage (env : Env) (sess : Session) (message ac : Option (List Char)) :
    ChatResponse × List Event :=
  ((optionStage env sess (sess.currentNode.getD startNode) (truthy message) (truthy ac)).1,
   userEvents (truthy message) ++
     (optionStage env sess (sess.currentNode.getD startNode) (truthy message) (truthy ac)).2 ++
     [Event.historyAppend Role.assistant
        (optionStage env sess (sess.currentNode.getD startNode) (truthy message)
            (truthy ac)).1.text])

/-- The node passed to the first `update_session` call of the trace. -/
def persistedNode : List Event → Option (List Char)
  | [] => none
  | Event.sessionUpdate n :: _ => some n
  | _ :: rest => persistedNode rest

theorem amStep_fold_some {α β : Type} [LinearOrder β] (f : α → β) (thr : β) :
    ∀ (l : List α) (b : Option α) (s : β) (t : α),
      (l.foldl (amStep f thr) (b, s)).1 = some t →
      (b = some t ∧ ∀ u ∈ l, thr ≤ f u → f u ≤ s) ∨
      (∃ pre post, l = pre ++ t :: post ∧
        thr ≤ f t ∧ s < f t ∧
        (∀ u ∈ pre, thr ≤ f u → f u < f t) ∧
        (∀ u ∈ post, thr ≤ f u → f u ≤ f t)) := by
  intro l
  induction l with
  | nil =>
    intro b s t h
    left
    simp only [List.foldl_nil] at h
    exact ⟨h, by simp⟩
  | cons x xs ih =>
    intro b s t h
    simp only [List.foldl_cons] at h
    by_cases hx : f x > s ∧ f x ≥ thr
    · have hstep : amStep f thr (b, s) x = (some x, f x) := by
        simp [amStep, hx]
      rw [hstep] at h
      rcases ih (some x) (f x) t h with ⟨hb, hall⟩ | ⟨pre, post, hsplit, hthr, hlt, hpre, hpost⟩
      · have hxt : x = t := Option.some.injEq x t ▸ hb
        subst hxt
        right
        exact ⟨[], xs, by simp, hx.2, hx.1, by simp, hall⟩
      · right
        refine ⟨x :: pre, post, ?_, hthr, lt_trans hx.1 hlt, ?_, hpost⟩
        · rw [hsplit, List.cons_append]
        · intro u hu
          rcases List.mem_cons.mp hu with rfl | hu2
          · exact fun _ => hlt
          · exact hpre u hu2
    · have hstep : amStep f thr (b, s) x = (b, s) := by
        simp only [amStep, if_neg hx]
      rw [hstep] at h
      rcases ih b s t h with ⟨hb, hall⟩ | ⟨pre, post, hsplit, hthr, hlt, hpre, hpost⟩
      · left
        refine ⟨hb, ?_⟩
        intro u hu hthr2
        rcases List.mem_cons.mp hu with rfl | hu2
        · by_contra hgt
          exact hx ⟨lt_of_not_le hgt, hthr2⟩
        · exact hall u hu2 hthr2
      · right
        refine ⟨x :: pre, post, by rw [hsplit, List.cons_append], hthr, hlt, ?_, hpost⟩
        intro u hu hthr2
        rcases List.mem_cons.mp hu with rfl | hu2
        · by_contra hge
          have hle : f t ≤ f u := le_of_not_lt hge
          exact hx ⟨lt_of_lt_of_le hlt hle, hthr2⟩
        · exact hpre u hu2 hthr2

theorem amStep_fold_none {α β : Type} [LinearOrder β] (f : α → β) (thr : β) :
    ∀ (l : List α) (b : Option α) (s : β),
      (∀ u ∈ l, ¬(s < f u ∧ thr ≤ f u)) →
      l.foldl (amStep f thr) (b, s) = (b, s) := by
  intro l
  induction l with
  | nil => intro b s _; rfl
  | cons x xs ih =>
    intro b s hall
    simp only [List.foldl_cons]
    have hstep : amStep f thr (b, s) x = (b, s) := by
      have hnot := hall x (List.mem_cons_self x xs)
      simp only [amStep]
      rw [if_neg]
      intro hc
      exact hnot ⟨hc.1, hc.2⟩
    rw [hstep]
    exact ih b s (fun u hu => hall u (List.mem_cons_of_mem x hu))

theorem simScore_eval (a b : List Char) (M L : ℕ) (hM : totalMatched a b = M)
    (hL : a.length + b.length = L) (hne : L ≠ 0) :
    simScore a b = 2 * (M : ℚ) / (L : ℚ) := by
  simp [simScore, hM, hL, hne]

theorem wordOverlap_eval (qn tn : List Char) (n d : ℕ)
    (hn : ((splitWords qn).dedup.filter (fun w => w ∈ splitWords tn)).length = n)
    (hd : (splitWords qn).dedup.length = d)
    (hne : (splitWords qn).dedup ≠ []) :
    wordOverlap qn tn = (n : ℚ) / (d : ℚ) := by
  simp only [wordOverlap, hn, hd, if_neg hne]

/-- Claim C5: `fuzzy_match_title` returns a candidate only if that
candidate's combined score (0.6 · similarity of the normalized strings + 0.4 ·
query-word overlap fraction) reaches the threshold, and the returned candidate
is the first in scan order attaining the maximum combined score. -/
theorem best_title_match_spec :
    ∀ (q : List Char) (titles : List (List Char)) (thr : ℚ) (t : List Char),
      fuzzyMatchTitle q titles thr = some t →
      thr ≤ combinedScore (normalizeText q) t ∧
      ∃ pre post, titles = pre ++ t :: post ∧
        (∀ u ∈ pre, combinedScore (normalizeText q) u < combinedScore (normalizeText q) t) ∧
        (∀ u ∈ post, combinedScore (normalizeText q) u ≤ combinedScore (normalizeText q) t) := by
  intro q titles thr t h
  rw [fuzzyMatchTitle] at h
  by_cases hguard : q = [] ∨ titles = []
  · rw [if_pos hguard] at h
    exact absurd h (by simp)
  · rw [if_neg hguard] at h
    rcases amStep_fold_some (combinedScore (normalizeText q)) thr titles none 0 t h with
      ⟨hb, _⟩ | ⟨pre, post, hsplit, hthr, _, hpre, hpost⟩
    · exact absurd hb (by simp)
    · refine ⟨hthr, pre, post, hsplit, ?_, ?_⟩
      · intro u hu
        by_cases hc : thr ≤ combinedScore (normalizeText q) u
        · exact hpre u hu hc
        · exact lt_of_lt_of_le (lt_of_not_le hc) hthr
      · intro u hu
        by_cases hc : thr ≤ combinedScore (normalizeText q) u
        · exact hpost u hu hc
        · exact le_of_lt (lt_of_lt_of_le (lt_of_not_le hc) hthr)

/-- Witness for C5 at a concrete call. -/
theorem best_title_match_check :
    (1 : ℚ) / 2 ≤ combinedScore (normalizeText ("abc".data)) ("abc".data) ∧
    ∃ pre post, ["abc".data] = pre ++ "abc".data :: post ∧
      (∀ u ∈ pre,
        combinedScore (normalizeText ("abc".data)) u <
          combinedScore (normalizeText ("abc".data)) ("abc".data)) ∧
      (∀ u ∈ post,
        combinedScore (normalizeText ("abc".data)) u ≤
          combinedScore (normalizeText ("abc".data)) ("abc".data)) := by
  refine best_title_match_spec ("abc".data) ["abc".data] (1 / 2) ("abc".data) ?_
  have hn : normalizeText ("abc".data) = "abc".data := by decide
  have hs : simScore ("abc".data) ("abc".data) = 1 := by
    rw [simScore_eval _ _ 3 6 (by decide) (by decide) (by norm_num)]; norm_num
  have ho : wordOverlap ("abc".data) ("abc".data) = 1 := by
    rw [wordOverlap_eval _ _ 1 1 (by decide) (by decide) (by decide)]; norm_num
  have hc : combinedScore (normalizeText ("abc".data)) ("abc".data) = 1 := by
    rw [combinedScore, hn, hs, ho]; norm_num
  rw [fuzzyMatchTitle, if_neg (by simp)]
  simp only [List.foldl_cons, List.foldl_nil, amStep, hc]
  rw [if_pos (by norm_num)]

/-- Claim C7: Stage C extracts as keywords the words of the normalized
message longer than 2 characters and outside the stop-word set; it counts, per
record, the keywords occurring as substrings of the normalized description or
title, and returns the best-scoring record only when its count reaches 2 (the
returned record is the first attaining the maximal count); with no record at
count 2 it returns `None`. -/
theorem keyword_stage_spec :
    (∀ (t w : List Char), t ≠ [] →
      (w ∈ extractKeywords t ↔
        w ∈ splitWords (normalizeText t) ∧ w ∉ stopWords ∧ 2 < w.length)) ∧
    (∀ (st : CatalogState) (q : List Char) (res : DiagResult),
      keywordSearch st q = some res →
      ∃ r pre post, st.errorCodes = pre ++ r :: post ∧ res = formatErrorResponse r ∧
        2 ≤ keywordScore (extractKeywords q) r ∧
        (∀ u ∈ pre, keywordScore (extractKeywords q) u < keywordScore (extractKeywords q) r) ∧
        (∀ u ∈ post, keywordScore (extractKeywords q) u ≤ keywordScore (extractKeywords q) r)) ∧
    (∀ (st : CatalogState) (q : List Char),
      (∀ r ∈ st.errorCodes, keywordScore (extractKeywords q) r < 2) →
      keywordSearch st q = none) := by
  refine ⟨?_, ?_, ?_⟩
  · intro t w ht
    rw [extractKeywords, if_neg ht]
    simp only [List.mem_filter, decide_eq_true_eq]
  · intro st q res h
    rw [keywordSearch] at h
    by_cases hk : extractKeywords q = []
    · simp only [if_pos hk] at h
      exact absurd h (by simp)
    · rw [if_neg hk] at h
      simp only [Option.map_eq_some'] at h
      obtain ⟨r0, hr0, hres⟩ := h
      rcases amStep_fold_some (keywordScore (extractKeywords q)) 2 st.errorCodes none 0 r0 hr0
        with ⟨hb, _⟩ | ⟨pre, post, hsplit, hthr, _, hpre, hpost⟩
      · exact absurd hb (by simp)
      · refine ⟨r0, pre, post, hsplit, hres.symm, hthr, ?_, ?_⟩
        · intro u hu
          by_cases hc : 2 ≤ keywordScore (extractKeywords q) u
          · exact hpre u hu hc
          · exact lt_of_lt_of_le (lt_of_not_le hc) hthr
        · intro u hu
          by_cases hc : 2 ≤ keywordScore (extractKeywords q) u
          · exact hpost u hu hc
          · exact le_of_lt (lt_of_lt_of_le (lt_of_not_le hc) hthr)
  · intro st q hall
    rw [keywordSearch]
    by_cases hk : extractKeywords q = []
    · rw [if_pos hk]
    · rw [if_neg hk]
      have hnone := amStep_fold_none (keywordScore (extractKeywords q)) 2 st.errorCodes none 0
        (fun u hu hc => absurd hc.2 (not_le_of_lt (hall u hu)))
      rw [hnone]
      rfl

/-- Witness for C7: a two-keyword match is returned; a catalog whose records
all score below 2 yields `None`. -/
theorem keyword_stage_check :
    ("gun".data ∈ extractKeywords ("the gun is hot issue".data) ↔
      "gun".data ∈ splitWords (normalizeText ("the gun is hot issue".data)) ∧
        "gun".data ∉ stopWords ∧ 2 < ("gun".data).length) ∧
    keywordSearch
      { errorCodes :=
          [{ errorCode := "ER001".data, tittle := "Gun Temperature".data,
             description := "gun hot".data, solutions := [] }],
        errorIndex := [] } ("gun hot issue".data) =
      some (formatErrorResponse
        { errorCode := "ER001".data, tittle := "Gun Temperature".data,
          description := "gun hot".data, solutions := [] }) ∧
    keywordSearch
      { errorCodes :=
          [{ errorCode := "ER001".data, tittle := "Gun Temperature".data,
             description := "gun hot".data, solutions := [] }],
        errorIndex := [] } ("zzz qqq".data) = none := by
  refine ⟨keyword_stage_spec.1 ("the gun is hot issue".data) ("gun".data) (by decide), ?_, ?_⟩
  · decide
  · exact keyword_stage_spec.2.2 _ ("zzz qqq".data) (by decide)

theorem dictLookup_dictInsert {α : Type} (k k2 : List Char) (v : α)
    (d : List (List Char × α)) :
    dictLookup k (dictInsert k2 v d) = if k2 = k then some v else dictLookup k d := by
  induction d with
  | nil => simp only [dictInsert, dictLookup]
  | cons p rest ih =>
    obtain ⟨k3, v3⟩ := p
    simp only [dictInsert, dictLookup]
    by_cases h3 : k3 = k2
    · subst h3
      simp only [if_pos rfl, dictLookup]
      by_cases hk : k3 = k
      · simp only [if_pos hk]
      · simp only [if_neg hk]
    · simp only [if_neg h3, dictLookup, ih]
      by_cases hk3 : k3 = k
      · have hne : ¬k2 = k := fun hc => h3 (hk3.trans hc.symm)
        simp only [if_pos hk3, if_neg hne]
      · simp only [if_neg hk3]

theorem dictInsert_keys {α : Type} (k : List Char) (v : α) (d : List (List Char × α)) :
    (dictInsert k v d).map Prod.fst =
      if k ∈ d.map Prod.fst then d.map Prod.fst else d.map Prod.fst ++ [k] := by
  induction d with
  | nil =>
    simp only [dictInsert, List.map_cons, List.map_nil]
    rw [if_neg (List.not_mem_nil k)]
    rfl
  | cons p rest ih =>
    obtain ⟨k3, v3⟩ := p
    simp only [dictInsert]
    by_cases h3 : k3 = k
    · subst h3
      rw [if_pos rfl]
      rw [if_pos (by rw [List.map_cons]; exact List.mem_cons_self _ _)]
      simp only [List.map_cons]
    · rw [if_neg h3]
      simp only [List.map_cons, ih]
      by_cases hmem : k ∈ rest.map Prod.fst
      · rw [if_pos hmem]
        rw [if_pos (List.mem_cons_of_mem _ hmem)]
      · rw [if_neg hmem]
        rw [if_neg (by
          intro hc
          rcases List.mem_cons.mp hc with hc2 | hc2
          · exact h3 hc2.symm
          · exact hmem hc2)]
        rw [List.cons_append]

theorem dictInsert_nodup {α : Type} (k : List Char) (v : α) (d : List (List Char × α))
    (h : (d.map Prod.fst).Nodup) : ((dictInsert k v d).map Prod.fst).Nodup := by
  rw [dictInsert_keys]
  by_cases hmem : k ∈ d.map Prod.fst
  · simpa [hmem] using h
  · simp only [if_neg hmem]
    rw [List.nodup_append]
    refine ⟨h, List.nodup_singleton k, ?_⟩
    intro a ha hak
    rw [List.mem_singleton] at hak
    exact hmem (hak ▸ ha)

theorem buildIndex_cons (d : List (List Char × Record)) (r : Record) (rest : List Record) :
    buildIndex d (r :: rest) =
      buildIndex
        (if r.errorCode.map Char.toUpper ≠ [] then
          dictInsert (r.errorCode.map Char.toUpper) r d
        else d) rest :=
  rfl

theorem buildIndex_isSome (records : List Record) :
    ∀ (d : List (List Char × Record)) (k : List Char),
      (dictLookup k (buildIndex d records)).isSome = true ↔
        (dictLookup k d).isSome = true ∨
          ∃ r ∈ records, r.errorCode ≠ [] ∧ r.errorCode.map Char.toUpper = k := by
  induction records with
  | nil => intro d k; simp [buildIndex]
  | cons r rest ih =>
    intro d k
    by_cases hc : r.errorCode.map Char.toUpper ≠ []
    · rw [buildIndex_cons, if_pos hc, ih, dictLookup_dictInsert]
      by_cases hk : r.errorCode.map Char.toUpper = k
      · simp only [if_pos hk]
        constructor
        · intro h
          rcases h with h | h
          · exact Or.inr ⟨r, List.mem_cons_self r rest, by simpa using hc, hk⟩
          · obtain ⟨r2, hr2, hne, hk2⟩ := h
            exact Or.inr ⟨r2, List.mem_cons_of_mem r hr2, hne, hk2⟩
        · intro _
          exact Or.inl rfl
      · simp only [if_neg hk]
        constructor
        · intro h
          rcases h with h | ⟨r2, hr2, hne, hk2⟩
          · exact Or.inl h
          · exact Or.inr ⟨r2, List.mem_cons_of_mem r hr2, hne, hk2⟩
        · intro h
          rcases h with h | ⟨r2, hr2, hne, hk2⟩
          · exact Or.inl h
          · rcases List.mem_cons.mp hr2 with rfl | hr2b
            · exact absurd hk2 hk
            · exact Or.inr ⟨r2, hr2b, hne, hk2⟩
    · rw [buildIndex_cons, if_neg hc, ih]
      have hcode : r.errorCode = [] := by
        by_contra hne
        exact hc (by simpa using hne)
      constructor
      · intro h
        rcases h with h | ⟨r2, hr2, hne, hk2⟩
        · exact Or.inl h
        · exact Or.inr ⟨r2, List.mem_cons_of_mem r hr2, hne, hk2⟩
      · intro h
        rcases h with h | ⟨r2, hr2, hne, hk2⟩
        · exact Or.inl h
        · rcases List.mem_cons.mp hr2 with rfl | hr2b
          · exact absurd hcode hne
          · exact Or.inr ⟨r2, hr2b, hne, hk2⟩

theorem buildIndex_nodup (records : List Record) :
    ∀ d : List (List Char × Record),
      (d.map Prod.fst).Nodup → ((buildIndex d records).map Prod.fst).Nodup := by
  induction records with
  | nil => intro d h; simpa [buildIndex] using h
  | cons r rest ih =>
    intro d h
    by_cases hc : r.errorCode.map Char.toUpper ≠ []
    · rw [buildIndex_cons, if_pos hc]
      exact ih _ (dictInsert_nodup _ r d h)
    · rw [buildIndex_cons, if_neg hc]
      exact ih d h

theorem buildIndex_frame (rest : List Record) :
    ∀ (d : List (List Char × Record)) (k : List Char) (r : Record),
      dictLookup k d = some r →
      (∀ r2 ∈ rest, r2.errorCode.map Char.toUpper = k → r2 = r) →
      dictLookup k (buildIndex d rest) = some r := by
  induction rest with
  | nil => intro d k r h _; simpa [buildIndex] using h
  | cons r2 rest2 ih =>
    intro d k r h huniq
    by_cases hc : r2.errorCode.map Char.toUpper ≠ []
    · rw [buildIndex_cons, if_pos hc]
      refine ih _ k r ?_ (fun r3 hr3 hk3 => huniq r3 (List.mem_cons_of_mem r2 hr3) hk3)
      rw [dictLookup_dictInsert]
      by_cases hk2 : r2.errorCode.map Char.toUpper = k
      · rw [if_pos hk2, huniq r2 (List.mem_cons_self r2 rest2) hk2]
      · rw [if_neg hk2]
        exact h
    · rw [buildIndex_cons, if_neg hc]
      exact ih d k r h (fun r3 hr3 hk3 => huniq r3 (List.mem_cons_of_mem r2 hr3) hk3)

theorem buildIndex_value (records : List Record) :
    ∀ (d : List (List Char × Record)) (r : Record),
      r ∈ records → r.errorCode ≠ [] →
      (∀ r2 ∈ records, r2.errorCode.map Char.toUpper = r.errorCode.map Char.toUpper → r2 = r) →
      dictLookup (r.errorCode.map Char.toUpper) (buildIndex d records) = some r := by
  induction records with
  | nil => intro d r h; cases h
  | cons r1 rest ih =>
    intro d r hmem hne huniq
    rcases List.mem_cons.mp hmem with rfl | hmem2
    · have hc : r.errorCode.map Char.toUpper ≠ [] := by simpa using hne
      rw [buildIndex_cons, if_pos hc]
      refine buildIndex_frame rest _ _ r ?_
        (fun r3 hr3 hk3 => huniq r3 (List.mem_cons_of_mem r hr3) hk3)
      rw [dictLookup_dictInsert, if_pos rfl]
    · by_cases hc : r1.errorCode.map Char.toUpper ≠ []
      · rw [buildIndex_cons, if_pos hc]
        exact ih _ r hmem2 hne
          (fun r3 hr3 hk3 => huniq r3 (List.mem_cons_of_mem r1 hr3) hk3)
      · rw [buildIndex_cons, if_neg hc]
        exact ih d r hmem2 hne
          (fun r3 hr3 hk3 => huniq r3 (List.mem_cons_of_mem r1 hr3) hk3)

/-- Claim C2 (amended): loading a parsed record list into the empty catalog
produces an index with exactly one entry per record with a non-empty code
(keyed by the uppercased code, unique codes mapping to their record), and a
failed load empties both structures; but a successful load into a non-empty
state only merges the new entries into the EXISTING index (the source never
clears `error_index`), so every previously present key survives a reload. -/
theorem catalog_load_index_spec :
    (∀ (records : List Record) (k : List Char),
      ((dictLookup k (loadErrorCodes emptyCatalog (Except.ok records)).errorIndex).isSome =
          true ↔
        ∃ r ∈ records, r.errorCode ≠ [] ∧ r.errorCode.map Char.toUpper = k) ∧
      ((loadErrorCodes emptyCatalog (Except.ok records)).errorIndex.map Prod.fst).Nodup) ∧
    (∀ (records : List Record) (r : Record), r ∈ records → r.errorCode ≠ [] →
      (∀ r2 ∈ records,
        r2.errorCode.map Char.toUpper = r.errorCode.map Char.toUpper → r2 = r) →
      dictLookup (r.errorCode.map Char.toUpper)
        (loadErrorCodes emptyCatalog (Except.ok records)).errorIndex = some r) ∧
    (∀ (st : CatalogState) (e : LoadError),
      loadErrorCodes st (Except.error e) = { errorCodes := [], errorIndex := [] }) ∧
    (∀ (st : CatalogState) (records : List Record),
      (loadErrorCodes st (Except.ok records)).errorCodes = records) ∧
    (∀ (st : CatalogState) (records : List Record) (k : List Char),
      (dictLookup k st.errorIndex).isSome = true →
      (dictLookup k (loadErrorCodes st (Except.ok records)).errorIndex).isSome = true) := by
  refine ⟨?_, ?_, ?_, ?_, ?_⟩
  · intro records k
    constructor
    · show (dictLookup k (buildIndex [] records)).isSome = true ↔ _
      rw [buildIndex_isSome]
      simp [dictLookup]
    · show ((buildIndex [] records).map Prod.fst).Nodup
      exact buildIndex_nodup records [] (by simp)
  · intro records r hmem hne huniq
    exact buildIndex_value records [] r hmem hne huniq
  · intro st e
    rfl
  · intro st records
    rfl
  · intro st records k h
    show (dictLookup k (buildIndex st.errorIndex records)).isSome = true
    rw [buildIndex_isSome]
    exact Or.inl h

/-- Counterexample to C2 as stated: after a second successful load, the index
still answers for the first load's code even though no current record carries
it — the reload is not an atomic replacement of the index. -/
theorem catalog_reload_stale_entry :
    (loadErrorCodes
        (loadErrorCodes emptyCatalog
          (Except.ok [{ errorCode := "ER001".data, tittle := "t1".data,
                        description := "d1".data, solutions := [] }]))
        (Except.ok [{ errorCode := "ER002".data, tittle := "t2".data,
                      description := "d2".data, solutions := [] }])).errorCodes =
      [{ errorCode := "ER002".data, tittle := "t2".data,
         description := "d2".data, solutions := [] }] ∧
    dictLookup ("ER001".data)
      (loadErrorCodes
          (loadErrorCodes emptyCatalog
            (Except.ok [{ errorCode := "ER001".data, tittle := "t1".data,
                          description := "d1".data, solutions := [] }]))
          (Except.ok [{ errorCode := "ER002".data, tittle := "t2".data,
                        description := "d2".data, solutions := [] }])).errorIndex =
      some { errorCode := "ER001".data, tittle := "t1".data,
             description := "d1".data, solutions := [] } := by
  constructor
  · rfl
  · decide

/-- Witness for C2's amended statement at a concrete load. -/
theorem catalog_load_index_check :
    dictLookup ("ER001".data)
      (loadErrorCodes emptyCatalog
        (Except.ok [{ errorCode := "ER001".data, tittle := "t1".data,
                      description := "d1".data, solutions := [] }])).errorIndex =
      some { errorCode := "ER001".data, tittle := "t1".data,
             description := "d1".data, solutions := [] } := by
  have h := catalog_load_index_spec.2.1
    [{ errorCode := "ER001".data, tittle := "t1".data,
       description := "d1".data, solutions := [] }]
    { errorCode := "ER001".data, tittle := "t1".data,
      description := "d1".data, solutions := [] }
    (by decide) (by decide) (by decide)
  simpa using h

theorem detect_stageA (st : CatalogState) (m code : List Char) (res : DiagResult)
    (hm : m ≠ []) (hc : st.errorCodes ≠ [])
    (hext : extractErrorPattern m = some code)
    (hlook : lookupByCode st code = some res) :
    detectErrorCode st m = some res := by
  rw [detectErrorCode, if_neg (not_or.mpr ⟨hm, hc⟩), hext]
  show (match lookupByCode st code with
    | some result => some result
    | none => detectStage23 st (normalizeText m)) = some res
  rw [hlook]

theorem lookupByCode_direct (st : CatalogState) (code : List Char) (R : Record)
    (hnorm : stripWS (code.map Char.toUpper) = code)
    (hlook : dictLookup code st.errorIndex = some R) :
    lookupByCode st code = some (formatErrorResponse R) := by
  rw [lookupByCode]
  simp only [hnorm, hlook]

/-- The second record candidate of `exCat42`, used in C3's statements. -/
def exRec42 : Record :=
  { errorCode := "ER042".data, tittle := "t".data, description := "d".data,
    solutions := [] }

/-- A one-record catalog whose only code is `ER042`. -/
def exCat42 : CatalogState :=
  loadErrorCodes emptyCatalog (Except.ok [exRec42])

/-- Claim C3 (amended): with `ER042` in the index, the inputs `"error 42"`
and `"ER042"` both resolve through Stage A to that record, and the bare
numeric input `"042"` resolves through the `ER`-prefix toggle; the input
`"42 error"` of the original claim never reaches Stage A because its number
has only two digits and pattern 2 requires the digits after the word
`error`. -/
theorem code_lookup_toggle_spec :
    ∀ (st : CatalogState) (R : Record), st.errorCodes ≠ [] →
      dictLookup ("ER042".data) st.errorIndex = some R →
      detectErrorCode st ("error 42".data) = some (formatErrorResponse R) ∧
      detectErrorCode st ("ER042".data) = some (formatErrorResponse R) ∧
      (dictLookup ("042".data) st.errorIndex = none →
        detectErrorCode st ("042".data) = some (formatErrorResponse R)) ∧
      extractErrorPattern ("42 error".data) = none := by
  intro st R hc hlook
  have hlookup : lookupByCode st ("ER042".data) = some (formatErrorResponse R) :=
    lookupByCode_direct st ("ER042".data) R (by decide) hlook
  refine ⟨?_, ?_, ?_, by decide⟩
  · exact detect_stageA st ("error 42".data) ("ER042".data) _ (by decide) hc
      (by decide) hlookup
  · exact detect_stageA st ("ER042".data) ("ER042".data) _ (by decide) hc
      (by decide) hlookup
  · intro hmiss
    refine detect_stageA st ("042".data) ("042".data) _ (by decide) hc (by decide) ?_
    rw [lookupByCode]
    have hnorm : stripWS (("042".data).map Char.toUpper) = "042".data := by decide
    simp only [hnorm, hmiss]
    rw [if_pos (by refine ⟨by decide, by decide⟩)]
    have happ : "ER".data ++ "042".data = "ER042".data := by decide
    rw [happ, hlook]
    rfl

/-- Counterexample to C3 as stated: on `exCat42` (which has `ER042`), the
input `"42 error"` detects nothing at all — pattern extraction fails (two
digits only, and no pattern places the number before the word `error`), and
stages B and C also miss. -/
theorem detect_42error_miss :
    dictLookup ("ER042".data) exCat42.errorIndex = some exRec42 ∧
    detectErrorCode exCat42 ("42 error".data) = none := by
  refine ⟨by decide, ?_⟩
  have hs : simScore ("42 error".data) ("t".data) = 0 := by
    rw [simScore_eval _ _ 0 9 (by decide) (by decide) (by norm_num)]
    norm_num
  have ho : wordOverlap ("42 error".data) ("t".data) = 0 := by
    rw [wordOverlap_eval _ _ 0 2 (by decide) (by decide) (by decide)]
    norm_num
  have hnt : normalizeText ("t".data) = "t".data := by decide
  have hcs : combinedScore ("42 error".data) ("t".data) = 0 := by
    rw [combinedScore, hnt, hs, ho]
    norm_num
  rw [detectErrorCode, if_neg (by decide)]
  have hext : extractErrorPattern ("42 error".data) = none := by decide
  have hn : normalizeText ("42 error".data) = "42 error".data := by decide
  rw [hext]
  show (match fuzzyMatchTitles exCat42 (normalizeText ("42 error".data)) with
    | some r => some r
    | none => keywordSearch exCat42 (normalizeText ("42 error".data))) = none
  rw [hn]
  have htitles : exCat42.errorCodes.map (fun r => r.tittle) = ["t".data] := by decide
  have hfmt : fuzzyMatchTitle ("42 error".data) ["t".data] (3 / 5) = none := by
    rw [fuzzyMatchTitle, if_neg (by simp)]
    simp only [List.foldl_cons, List.foldl_nil, amStep]
    rw [if_neg (by rw [hn, hcs]; norm_num)]
  rw [fuzzyMatchTitles, htitles, hfmt]
  decide

/-- Witness for C3 at the concrete catalog `exCat42`. -/
theorem code_lookup_toggle_check :
    detectErrorCode exCat42 ("error 42".data) = some (formatErrorResponse exRec42) ∧
    detectErrorCode exCat42 ("ER042".data) = some (formatErrorResponse exRec42) := by
  have h := code_lookup_toggle_spec exCat42 exRec42 (by decide) (by decide)
  exact ⟨h.1, h.2.1⟩

theorem isDigit_toNat {c : Char} (h : c.isDigit = true) : 48 ≤ c.toNat ∧ c.toNat ≤ 57 := by
  simp only [Char.isDigit, Bool.and_eq_true, decide_eq_true_eq] at h
  obtain ⟨h1, h2⟩ := h
  exact ⟨UInt32.le_toNat_of_le (by norm_num [UInt32.size]) h1,
    UInt32.toNat_le_of_le (by norm_num [UInt32.size]) h2⟩

theorem toLower_of_digit {c : Char} (h : c.isDigit = true) : c.toLower = c := by
  obtain ⟨h1, h2⟩ := isDigit_toNat h
  rw [Char.toLower]
  exact if_neg (by omega)

theorem toLower_digit_ne_e {c : Char} (h : c.isDigit = true) : ¬c.toLower = 'e' := by
  rw [toLower_of_digit h]
  intro hc
  obtain ⟨h1, h2⟩ := isDigit_toNat h
  have he : c.toNat = 'e'.toNat := congrArg Char.toNat hc
  rw [show 'e'.toNat = 101 from rfl] at he
  omega

theorem isWordChar_of_digit {c : Char} (h : c.isDigit = true) : isWordChar c = true := by
  simp [isWordChar, Char.isAlphanum, h]

theorem isSpaceChar_of_digit {c : Char} (h : c.isDigit = true) : isSpaceChar c = false := by
  obtain ⟨h1, h2⟩ := isDigit_toNat h
  simp only [isSpaceChar, Bool.or_eq_false_iff, decide_eq_false_iff_not]
  refine ⟨⟨⟨⟨⟨?_, ?_⟩, ?_⟩, ?_⟩, ?_⟩, ?_⟩ <;>
    · intro hc
      subst hc
      revert h1 h2
      decide

theorem matchER_digit_head {c : Char} (rest : List Char) (h : c.isDigit = true) :
    matchER (c :: rest) = none := by
  cases rest with
  | nil => rfl
  | cons c2 r2 =>
    rw [matchER]
    exact if_neg (fun hc => toLower_digit_ne_e h hc.1)

theorem matchErrorNum_digit_head {c : Char} (rest : List Char) (h : c.isDigit = true) :
    matchErrorNum (c :: rest) = none := by
  rw [matchErrorNum]
  have hstrip : stripCI ("error".data) (c :: rest) = none := by
    rw [show ("error".data) = 'e' :: "rror".data from rfl, stripCI]
    exact if_neg (fun hc => toLower_digit_ne_e h hc.symm)
  rw [hstrip]

theorem matchENum_digit_head {c : Char} (rest : List Char) (h : c.isDigit = true) :
    matchENum (c :: rest) = none := by
  rw [matchENum]
  exact if_neg (toLower_digit_ne_e h)

theorem scanFor_digits_none (m : List Char → Option (List Char))
    (hm : ∀ (c : Char) (rest : List Char), c.isDigit = true → m (c :: rest) = none) :
    ∀ l : List Char, (∀ c ∈ l, c.isDigit = true) → ∀ b, scanFor m b l = none := by
  intro l
  induction l with
  | nil => intro _ b; rfl
  | cons c rest ih =>
    intro hall b
    have hc := hall c (List.mem_cons_self c rest)
    have hrest := fun u hu => hall u (List.mem_cons_of_mem c hu)
    rw [scanFor]
    cases b with
    | true =>
      show (match (none : Option (List Char)) with
        | some g => some g
        | none => scanFor m (isWordChar c) rest) = none
      exact ih hrest (isWordChar c)
    | false =>
      show (match m (c :: rest) with
        | some g => some g
        | none => scanFor m (isWordChar c) rest) = none
      rw [hm c rest hc]
      exact ih hrest (isWordChar c)

theorem dropWhile_eq_self_of_all (p : Char → Bool) (l : List Char)
    (h : ∀ c ∈ l, p c = false) : l.dropWhile p = l := by
  cases l with
  | nil => rfl
  | cons c rest =>
    exact List.dropWhile_cons_of_neg (by simp [h c (List.mem_cons_self c rest)])

theorem stripWS_eq_self (l : List Char) (h : ∀ c ∈ l, isSpaceChar c = false) :
    stripWS l = l := by
  rw [stripWS, dropWhile_eq_self_of_all _ _ h,
    dropWhile_eq_self_of_all _ _ (fun c hc => h c (List.mem_reverse.mp hc)),
    List.reverse_reverse]

theorem spanDigits_all (l : List Char) (h : ∀ c ∈ l, c.isDigit = true) :
    spanDigits l = (l, []) := by
  rw [spanDigits, List.span_eq_take_drop]
  rw [List.takeWhile_eq_self_iff.mpr h, List.dropWhile_eq_nil_iff.mpr h]

theorem extractErrorPattern_p4 (msg ds : List Char) (hne : msg ≠ [])
    (h1 : scanFor matchER false msg = none)
    (h2 : scanFor matchErrorNum false msg = none)
    (h3 : scanFor matchENum false msg = none)
    (h4 : scanFor matchNum34 false msg = some ds) :
    extractErrorPattern msg =
      (if (stripWS msg).length ≤ 4 ∨ matchDigits34End (stripWS msg) = true then some ds
       else if hasContextKeyword msg = true then some ds else none) := by
  rw [extractErrorPattern, if_neg hne, h1, h2, h3, h4]

/-- Claim C4 (amended): `extract_error_pattern` tries its patterns in order
(conjunct 1: a pattern-1 hit short-circuits the rest); when only the bare
3–4-digit pattern matches, the number is returned as-is exactly when the
trimmed message is at most 4 characters long, or is entirely a 3–4 digit
number, or a context keyword occurs (conjunct 2 — the original claim's
"number is the entire trimmed message" is really the weaker "trimmed length
≤ 4"); every message consisting solely of a 3–4 digit number is returned
unmodified (conjunct 3). -/
theorem extract_bare_number_spec :
    (∀ (msg g : List Char), scanFor matchER false msg = some g →
      extractErrorPattern msg = some (g.map Char.toUpper)) ∧
    (∀ (msg ds : List Char),
      scanFor matchER false msg = none →
      scanFor matchErrorNum false msg = none →
      scanFor matchENum false msg = none →
      scanFor matchNum34 false msg = some ds →
      (extractErrorPattern msg = some ds ↔
        ((stripWS msg).length ≤ 4 ∨ matchDigits34End (stripWS msg) = true ∨
          hasContextKeyword msg = true))) ∧
    (∀ ds : List Char, 3 ≤ ds.length → ds.length ≤ 4 →
      (∀ c ∈ ds, c.isDigit = true) → extractErrorPattern ds = some ds) := by
  refine ⟨?_, ?_, ?_⟩
  · intro msg g h
    have hne : msg ≠ [] := by
      intro hc
      rw [hc] at h
      exact absurd h (by simp [scanFor])
    rw [extractErrorPattern, if_neg hne, h]
  · intro msg ds h1 h2 h3 h4
    have hne : msg ≠ [] := by
      intro hc
      rw [hc] at h4
      exact absurd h4 (by simp [scanFor])
    rw [extractErrorPattern_p4 msg ds hne h1 h2 h3 h4]
    by_cases hA : (stripWS msg).length ≤ 4 ∨ matchDigits34End (stripWS msg) = true
    · rw [if_pos hA]
      constructor
      · intro _
        rcases hA with hA | hA
        · exact Or.inl hA
        · exact Or.inr (Or.inl hA)
      · intro _
        rfl
    · rw [if_neg hA]
      push_neg at hA
      by_cases hC : hasContextKeyword msg = true
      · rw [if_pos hC]
        constructor
        · intro _
          exact Or.inr (Or.inr hC)
        · intro _
          rfl
      · rw [if_neg hC]
        constructor
        · intro hc
          exact absurd hc (by simp)
        · intro hc
          rcases hc with hc | hc | hc
          · exact absurd hc (not_le_of_lt hA.1)
          · exact absurd hc hA.2
          · exact absurd hc hC
  · intro ds h3len h4len hdig
    have hne : ds ≠ [] := by
      intro hc
      rw [hc] at h3len
      exact absurd h3len (by simp)
    have h1 := scanFor_digits_none matchER (fun c r => matchER_digit_head r) ds hdig false
    have h2 := scanFor_digits_none matchErrorNum (fun c r => matchErrorNum_digit_head r)
      ds hdig false
    have h3 := scanFor_digits_none matchENum (fun c r => matchENum_digit_head r) ds hdig false
    have h4 : scanFor matchNum34 false ds = some ds := by
      cases ds with
      | nil => exact absurd rfl hne
      | cons c rest =>
        have hm : matchNum34 (c :: rest) = some (c :: rest) := by
          rw [matchNum34, spanDigits_all (c :: rest) hdig]
          show (if ((c :: rest).length = 3 ∨ (c :: rest).length = 4) ∧
              wordNext [] = false then
            some (c :: rest) else none) = some (c :: rest)
          rw [if_pos ⟨by omega, rfl⟩]
        rw [scanFor]
        show (match matchNum34 (c :: rest) with
          | some g => some g
          | none => scanFor matchNum34 (isWordChar c) rest) = some (c :: rest)
        rw [hm]
    rw [extractErrorPattern_p4 ds ds hne h1 h2 h3 h4]
    rw [if_pos (Or.inl (by
      rw [stripWS_eq_self ds (fun c hc => isSpaceChar_of_digit (hdig c hc))]
      exact h4len))]

/-- Counterexample to C4 as stated: `"#301"` returns the bare number as-is
although `301` is not the entire trimmed message and no context keyword
occurs — the source's gate is merely `len(stripped) <= 4`. -/
theorem bare_number_gate_refute :
    extractErrorPattern ("#301".data) = some ("301".data) ∧
    stripWS ("#301".data) ≠ "301".data ∧
    hasContextKeyword ("#301".data) = false := by
  refine ⟨by decide, by decide, by decide⟩

/-- Witness for C4's third conjunct at the message `"301"`. -/
theorem extract_bare_number_check :
    extractErrorPattern ("301".data) = some ("301".data) :=
  extract_bare_number_spec.2.2 ("301".data) (by decide) (by decide) (by decide)

theorem truthy_some {m : List Char} (hm : m ≠ []) : truthy (some m) = some m := by
  rw [truthy, if_neg hm]

theorem processMessage_option (env : Env) (sess : Session) (m n : List Char)
    (ac : Option (List Char)) (hm : m ≠ []) (hmap : mapOptionToNode m = some n) :
    processMessage env sess (some m) ac =
      (generateFlowResponse env.flows sess.sessionId n,
       [Event.historyAppend Role.user m, Event.flowGet n, Event.sessionUpdate n,
        Event.historyAppend Role.assistant
          (generateFlowResponse env.flows sess.sessionId n).text]) := by
  rw [processMessage, truthy_some hm]
  simp only [optionStage, hmap, userEvents]
  rfl

theorem processMessage_diag (env : Env) (sess : Session) (m : List Char) (d : DiagResult)
    (ac : Option (List Char)) (hm : m ≠ []) (hmap : mapOptionToNode m = none)
    (hdet : detectErrorCode env.cat m = some d) :
    processMessage env sess (some m) ac =
      (generateDiagnosticResponse sess.sessionId d,
       [Event.historyAppend Role.user m, Event.diagnosticDetect m,
        Event.sessionUpdate (sess.currentNode.getD startNode),
        Event.historyAppend Role.assistant
          (generateDiagnosticResponse sess.sessionId d).text]) := by
  rw [processMessage, truthy_some hm]
  simp only [optionStage, hmap, diagStage, hdet, userEvents]
  rfl

theorem processMessage_payment (env : Env) (sess : Session) (m : List Char)
    (ac : Option (List Char)) (hm : m ≠ []) (hmap : mapOptionToNode m = none)
    (hdet : detectErrorCode env.cat m = none) (hpay : isPaymentIntent m = true) :
    processMessage env sess (some m) ac =
      (generateFlowResponse env.flows sess.sessionId walletNode,
       [Event.historyAppend Role.user m, Event.diagnosticDetect m,
        Event.flowGet walletNode, Event.sessionUpdate walletNode,
        Event.historyAppend Role.assistant
          (generateFlowResponse env.flows sess.sessionId walletNode).text]) := by
  rw [processMessage, truthy_some hm]
  simp only [optionStage, hmap, diagStage, hdet, paymentStage, hpay, if_pos, userEvents]
  rfl

theorem processMessage_action (env : Env) (sess : Session) (m a : List Char)
    (hm : m ≠ []) (ha : a ≠ []) (hmap : mapOptionToNode m = none)
    (hdet : detectErrorCode env.cat m = none) (hpay : isPaymentIntent m = false) :
    processMessage env sess (some m) (some a) =
      (generateFlowResponse env.flows sess.sessionId a,
       [Event.historyAppend Role.user m, Event.diagnosticDetect m,
        Event.flowGet a, Event.sessionUpdate a,
        Event.historyAppend Role.assistant
          (generateFlowResponse env.flows sess.sessionId a).text]) := by
  rw [processMessage, truthy_some hm, truthy_some ha]
  simp only [optionStage, hmap, diagStage, hdet, paymentStage, hpay, actionStage, userEvents]
  rfl

theorem processMessage_intent (env : Env) (sess : Session) (m intent : List Char)
    (hm : m ≠ []) (hmap : mapOptionToNode m = none)
    (hdet : detectErrorCode env.cat m = none) (hpay : isPaymentIntent m = false)
    (hint : detectIntent m = some intent) :
    processMessage env sess (some m) none =
      (generateFlowResponse env.flows sess.sessionId (mapIntentToNode intent),
       [Event.historyAppend Role.user m, Event.diagnosticDetect m,
        Event.intentDetect m, Event.flowGet (mapIntentToNode intent),
        Event.sessionUpdate (mapIntentToNode intent),
        Event.historyAppend Role.assistant
          (generateFlowResponse env.flows sess.sessionId (mapIntentToNode intent)).text]) := by
  rw [processMessage, truthy_some hm]
  simp only [optionStage, hmap, diagStage, hdet, paymentStage, hpay, actionStage, truthy,
    intentStage, hint, userEvents]
  rfl

theorem processMessage_ai (env : Env) (sess : Session) (m : List Char)
    (hm : m ≠ []) (hmap : mapOptionToNode m = none)
    (hdet : detectErrorCode env.cat m = none) (hpay : isPaymentIntent m = false)
    (hint : detectIntent m = none) :
    processMessage env sess (some m) none =
      (generateAiResponse env.gen sess.sessionId m,
       [Event.historyAppend Role.user m, Event.diagnosticDetect m,
        Event.intentDetect m, Event.aiGenerate m,
        Event.sessionUpdate (sess.currentNode.getD startNode),
        Event.historyAppend Role.assistant
          (generateAiResponse env.gen sess.sessionId m).text]) := by
  rw [processMessage, truthy_some hm]
  simp only [optionStage, hmap, diagStage, hdet, paymentStage, hpay, actionStage, truthy,
    intentStage, hint, aiStage, Option.getD, userEvents]
  rfl

theorem processMessage_nomsg (env : Env) (sess : Session) :
    processMessage env sess none none =
      (generateAiResponse env.gen sess.sessionId helloMsg,
       [Event.aiGenerate helloMsg,
        Event.sessionUpdate (sess.currentNode.getD startNode),
        Event.historyAppend Role.assistant
          (generateAiResponse env.gen sess.sessionId helloMsg).text]) := by
  rfl

theorem isPaymentIntent_iff (m : List Char) :
    isPaymentIntent m = true ↔
      ∃ w ∈ splitWords (normalizeText m), ∃ kw ∈ paymentKeywords,
        simScore w kw ≥ 7 / 10 := by
  simp [isPaymentIntent, List.any_eq_true, decide_eq_true_eq]

theorem simScore_payement_val : simScore ("payement".data) ("payment".data) = 14 / 15 := by
  rw [simScore_eval _ _ 7 15 (by decide) (by decide) (by norm_num)]
  norm_num

theorem simScore_pamyent_val : simScore ("pamyent".data) ("payment".data) = 6 / 7 := by
  rw [simScore_eval _ _ 6 14 (by decide) (by decide) (by norm_num)]
  norm_num

theorem charging_scores :
    ∀ kw ∈ paymentKeywords, simScore ("charging".data) kw < 7 / 10 := by
  intro kw hkw
  have hkw2 : kw = "payment".data ∨ kw = "wallet".data ∨ kw = "balance".data ∨
      kw = "refund".data ∨ kw = "billing".data := by
    simpa [paymentKeywords] using hkw
  rcases hkw2 with rfl | rfl | rfl | rfl | rfl
  · rw [simScore_eval _ _ 2 15 (by decide) (by decide) (by norm_num)]
    norm_num
  · rw [simScore_eval _ _ 1 14 (by decide) (by decide) (by norm_num)]
    norm_num
  · rw [simScore_eval _ _ 1 15 (by decide) (by decide) (by norm_num)]
    norm_num
  · rw [simScore_eval _ _ 2 14 (by decide) (by decide) (by norm_num)]
    norm_num
  · rw [simScore_eval _ _ 3 15 (by decide) (by decide) (by norm_num)]
    norm_num

theorem zzz_scores :
    ∀ kw ∈ paymentKeywords, simScore ("zzz".data) kw < 7 / 10 := by
  intro kw hkw
  have hkw2 : kw = "payment".data ∨ kw = "wallet".data ∨ kw = "balance".data ∨
      kw = "refund".data ∨ kw = "billing".data := by
    simpa [paymentKeywords] using hkw
  rcases hkw2 with rfl | rfl | rfl | rfl | rfl
  · rw [simScore_eval _ _ 0 10 (by decide) (by decide) (by norm_num)]
    norm_num
  · rw [simScore_eval _ _ 0 9 (by decide) (by decide) (by norm_num)]
    norm_num
  · rw [simScore_eval _ _ 0 10 (by decide) (by decide) (by norm_num)]
    norm_num
  · rw [simScore_eval _ _ 0 9 (by decide) (by decide) (by norm_num)]
    norm_num
  · rw [simScore_eval _ _ 0 10 (by decide) (by decide) (by norm_num)]
    norm_num

theorem zzz_not_payment : isPaymentIntent ("zzz".data) = false := by
  rw [Bool.eq_false_iff]
  intro hc
  obtain ⟨w, hw, kw, hkw, hs⟩ := (isPaymentIntent_iff _).mp hc
  have hsplit : splitWords (normalizeText ("zzz".data)) = ["zzz".data] := by decide
  rw [hsplit] at hw
  have hw2 : w = "zzz".data := by simpa using hw
  subst hw2
  exact absurd hs (not_le_of_lt (zzz_scores kw hkw))

/-- Claim C6: the fuzzy payment check tests each word of the normalized
utterance against the five payment keywords at similarity threshold 0.70
(accepting `payement` and `pamyent` for `payment`, rejecting `charging`), and
a hit routes the turn as a `flow` decision to the fixed node `wallet_issues`
without the keyword-intent stage ever being consulted (no intent-detection
call appears in the trace). -/
theorem payment_fuzzy_spec :
    (∀ m : List Char, isPaymentIntent m = true ↔
      ∃ w ∈ splitWords (normalizeText m), ∃ kw ∈ paymentKeywords,
        simScore w kw ≥ 7 / 10) ∧
    simScore ("payement".data) ("payment".data) ≥ 7 / 10 ∧
    simScore ("pamyent".data) ("payment".data) ≥ 7 / 10 ∧
    isPaymentIntent ("payement".data) = true ∧
    isPaymentIntent ("pamyent".data) = true ∧
    isPaymentIntent ("charging".data) = false ∧
    (∀ (env : Env) (sess : Session) (m : List Char) (ac : Option (List Char)),
      m ≠ [] → mapOptionToNode m = none → detectErrorCode env.cat m = none →
      isPaymentIntent m = true →
      processMessage env sess (some m) ac =
        (generateFlowResponse env.flows sess.sessionId walletNode,
         [Event.historyAppend Role.user m, Event.diagnosticDetect m,
          Event.flowGet walletNode, Event.sessionUpdate walletNode,
          Event.historyAppend Role.assistant
            (generateFlowResponse env.flows sess.sessionId walletNode).text])) := by
  refine ⟨isPaymentIntent_iff, ?_, ?_, ?_, ?_, ?_, ?_⟩
  · rw [simScore_payement_val]
    norm_num
  · rw [simScore_pamyent_val]
    norm_num
  · refine (isPaymentIntent_iff _).mpr
      ⟨"payement".data, by decide, "payment".data, by decide, ?_⟩
    rw [simScore_payement_val]
    norm_num
  · refine (isPaymentIntent_iff _).mpr
      ⟨"pamyent".data, by decide, "payment".data, by decide, ?_⟩
    rw [simScore_pamyent_val]
    norm_num
  · rw [Bool.eq_false_iff]
    intro hc
    obtain ⟨w, hw, kw, hkw, hs⟩ := (isPaymentIntent_iff _).mp hc
    have hsplit : splitWords (normalizeText ("charging".data)) = ["charging".data] := by
      decide
    rw [hsplit] at hw
    have hw2 : w = "charging".data := by simpa using hw
    subst hw2
    exact absurd hs (not_le_of_lt (charging_scores kw hkw))
  · intro env sess m ac hm hmap hdet hpay
    exact processMessage_payment env sess m ac hm hmap hdet hpay

/-- Example catalog/flows/environment used by the concrete witnesses. -/
def exRec1 : Record :=
  { errorCode := "ER001".data, tittle := "Gun Temperature Limit".data,
    description := "d".data, solutions := [] }

/-- A one-record catalog holding `ER001`. -/
def exCat1 : CatalogState :=
  loadErrorCodes emptyCatalog (Except.ok [exRec1])

/-- A tiny flows dictionary with just a `start` node. -/
def exFlows : List (List Char × FlowNode) :=
  [(startNode, { text := some ("Welcome".data), options := none, steps := none,
                 action := none })]

/-- Environment around `exCat1` with a constant generator. -/
def exEnv : Env :=
  { cat := exCat1, flows := exFlows, gen := fun _ => "ok".data }

/-- Environment with an empty catalog (every detection misses). -/
def exEnvE : Env :=
  { cat := emptyCatalog, flows := exFlows, gen := fun _ => "ok".data }

/-- A session sitting at the `start` node. -/
def exSess : Session :=
  { sessionId := "sid".data, currentNode := some startNode }

/-- Witness for C6 at the message `"pamyent issue"` (typo routed to the
wallet flow). -/
theorem payment_fuzzy_check :
    processMessage exEnvE exSess (some ("pamyent issue".data)) none =
      (generateFlowResponse exEnvE.flows exSess.sessionId walletNode,
       [Event.historyAppend Role.user ("pamyent issue".data),
        Event.diagnosticDetect ("pamyent issue".data),
        Event.flowGet walletNode, Event.sessionUpdate walletNode,
        Event.historyAppend Role.assistant
          (generateFlowResponse exEnvE.flows exSess.sessionId walletNode).text]) := by
  refine payment_fuzzy_spec.2.2.2.2.2.2 exEnvE exSess ("pamyent issue".data) none
    (by decide) (by decide) (by decide) ?_
  refine (isPaymentIntent_iff _).mpr
    ⟨"pamyent".data, by decide, "payment".data, by decide, ?_⟩
  rw [simScore_pamyent_val]
  norm_num

/-- Claim C1: the router's stages run in the fixed order option-mapping →
diagnostic → payment → action → intent → AI, returning on the first match: an
option-map hit routes as a `flow` decision to the mapped node no matter what
the other stages would say (conjunct 1); a text matching the
error-option-label pattern makes `_map_option_to_node` return `None`
deliberately (conjunct 2); with option mapping missed, a diagnostic hit wins
over everything later (conjunct 3) and an action is consulted only after the
payment check (conjunct 4); in particular `"ER001 - Gun Temp"` skips option
mapping (conjunct 5) and, whenever the catalog resolves `ER001`, produces a
`diagnostic` decision carrying that record's code (conjunct 6). -/
theorem router_priority_order :
    (∀ (env : Env) (sess : Session) (m n : List Char) (ac : Option (List Char)),
      m ≠ [] → mapOptionToNode m = some n →
      processMessage env sess (some m) ac =
        (generateFlowResponse env.flows sess.sessionId n,
         [Event.historyAppend Role.user m, Event.flowGet n, Event.sessionUpdate n,
          Event.historyAppend Role.assistant
            (generateFlowResponse env.flows sess.sessionId n).text])) ∧
    (∀ m : List Char, erOptionPattern (stripWS (m.map Char.toLower)) = true →
      mapOptionToNode m = none) ∧
    (∀ (env : Env) (sess : Session) (m : List Char) (d : DiagResult)
        (ac : Option (List Char)),
      m ≠ [] → mapOptionToNode m = none → detectErrorCode env.cat m = some d →
      processMessage env sess (some m) ac =
        (generateDiagnosticResponse sess.sessionId d,
         [Event.historyAppend Role.user m, Event.diagnosticDetect m,
          Event.sessionUpdate (sess.currentNode.getD startNode),
          Event.historyAppend Role.assistant
            (generateDiagnosticResponse sess.sessionId d).text])) ∧
    (∀ (env : Env) (sess : Session) (m a : List Char),
      m ≠ [] → a ≠ [] → mapOptionToNode m = none → detectErrorCode env.cat m = none →
      isPaymentIntent m = false →
      processMessage env sess (some m) (some a) =
        (generateFlowResponse env.flows sess.sessionId a,
         [Event.historyAppend Role.user m, Event.diagnosticDetect m,
          Event.flowGet a, Event.sessionUpdate a,
          Event.historyAppend Role.assistant
            (generateFlowResponse env.flows sess.sessionId a).text])) ∧
    mapOptionToNode ("ER001 - Gun Temp".data) = none ∧
    (∀ (env : Env) (sess : Session) (R : Record) (ac : Option (List Char)),
      dictLookup ("ER001".data) env.cat.errorIndex = some R →
      env.cat.errorCodes ≠ [] →
      (processMessage env sess (some ("ER001 - Gun Temp".data)) ac).1.rtype =
          RType.diagnostic ∧
      (processMessage env sess (some ("ER001 - Gun Temp".data)) ac).1.errorCode =
          some R.errorCode) := by
  refine ⟨?_, ?_, ?_, ?_, by decide, ?_⟩
  · intro env sess m n ac hm hmap
    exact processMessage_option env sess m n ac hm hmap
  · intro m h
    rw [mapOptionToNode]
    simp only [h, if_pos]
  · intro env sess m d ac hm hmap hdet
    exact processMessage_diag env sess m d ac hm hmap hdet
  · intro env sess m a hm ha hmap hdet hpay
    exact processMessage_action env sess m a hm ha hmap hdet hpay
  · intro env sess R ac hlook hcodes
    have hdet : detectErrorCode env.cat ("ER001 - Gun Temp".data) =
        some (formatErrorResponse R) := by
      refine detect_stageA env.cat ("ER001 - Gun Temp".data) ("ER001".data) _
        (by decide) hcodes (by decide) ?_
      exact lookupByCode_direct env.cat ("ER001".data) R (by decide) hlook
    rw [processMessage_diag env sess ("ER001 - Gun Temp".data) (formatErrorResponse R) ac
      (by decide) (by decide) hdet]
    exact ⟨rfl, rfl⟩

/-- Witness for C1 at the concrete catalog `exCat1`. -/
theorem router_priority_order_check :
    (processMessage exEnv exSess (some ("ER001 - Gun Temp".data)) none).1.rtype =
        RType.diagnostic ∧
    (processMessage exEnv exSess (some ("ER001 - Gun Temp".data)) none).1.errorCode =
        some ("ER001".data) ∧
    processMessage exEnv exSess (some ("back to menu".data)) none =
      (generateFlowResponse exEnv.flows exSess.sessionId startNode,
       [Event.historyAppend Role.user ("back to menu".data), Event.flowGet startNode,
        Event.sessionUpdate startNode,
        Event.historyAppend Role.assistant
          (generateFlowResponse exEnv.flows exSess.sessionId startNode).text]) := by
  have h6 := router_priority_order.2.2.2.2.2 exEnv exSess exRec1 none (by decide) (by decide)
  have h1 := router_priority_order.1 exEnv exSess ("back to menu".data) startNode none
    (by decide) (by decide)
  exact ⟨h6.1, h6.2, h1⟩

/-- Claim C9: diagnostic and AI-fallback decisions re-persist the session's
prior current node (default `start`), while option-mapping, payment, action
and intent decisions persist the newly routed node. -/
theorem persisted_node_spec :
    (∀ (env : Env) (sess : Session) (m n : List Char) (ac : Option (List Char)),
      m ≠ [] → mapOptionToNode m = some n →
      persistedNode (processMessage env sess (some m) ac).2 = some n ∧
      (processMessage env sess (some m) ac).1.rtype = RType.flow) ∧
    (∀ (env : Env) (sess : Session) (m : List Char) (d : DiagResult)
        (ac : Option (List Char)),
      m ≠ [] → mapOptionToNode m = none → detectErrorCode env.cat m = some d →
      persistedNode (processMessage env sess (some m) ac).2 =
        some (sess.currentNode.getD startNode) ∧
      (processMessage env sess (some m) ac).1.rtype = RType.diagnostic) ∧
    (∀ (env : Env) (sess : Session) (m : List Char) (ac : Option (List Char)),
      m ≠ [] → mapOptionToNode m = none → detectErrorCode env.cat m = none →
      isPaymentIntent m = true →
      persistedNode (processMessage env sess (some m) ac).2 = some walletNode ∧
      (processMessage env sess (some m) ac).1.rtype = RType.flow) ∧
    (∀ (env : Env) (sess : Session) (m a : List Char),
      m ≠ [] → a ≠ [] → mapOptionToNode m = none → detectErrorCode env.cat m = none →
      isPaymentIntent m = false →
      persistedNode (processMessage env sess (some m) (some a)).2 = some a ∧
      (processMessage env sess (some m) (some a)).1.rtype = RType.flow) ∧
    (∀ (env : Env) (sess : Session) (m intent : List Char),
      m ≠ [] → mapOptionToNode m = none → detectErrorCode env.cat m = none →
      isPaymentIntent m = false → detectIntent m = some intent →
      persistedNode (processMessage env sess (some m) none).2 =
        some (mapIntentToNode intent) ∧
      (processMessage env sess (some m) none).1.rtype = RType.flow) ∧
    (∀ (env : Env) (sess : Session) (m : List Char),
      m ≠ [] → mapOptionToNode m = none → detectErrorCode env.cat m = none →
      isPaymentIntent m = false → detectIntent m = none →
      persistedNode (processMessage env sess (some m) none).2 =
        some (sess.currentNode.getD startNode) ∧
      (processMessage env sess (some m) none).1.rtype = RType.ai) ∧
    (∀ (env : Env) (sess : Session),
      persistedNode (processMessage env sess none none).2 =
        some (sess.currentNode.getD startNode) ∧
      (processMessage env sess none none).1.rtype = RType.ai) := by
  refine ⟨?_, ?_, ?_, ?_, ?_, ?_, ?_⟩
  · intro env sess m n ac hm hmap
    rw [processMessage_option env sess m n ac hm hmap]
    exact ⟨rfl, rfl⟩
  · intro env sess m d ac hm hmap hdet
    rw [processMessage_diag env sess m d ac hm hmap hdet]
    exact ⟨rfl, rfl⟩
  · intro env sess m ac hm hmap hdet hpay
    rw [processMessage_payment env sess m ac hm hmap hdet hpay]
    exact ⟨rfl, rfl⟩
  · intro env sess m a hm ha hmap hdet hpay
    rw [processMessage_action env sess m a hm ha hmap hdet hpay]
    exact ⟨rfl, rfl⟩
  · intro env sess m intent hm hmap hdet hpay hint
    rw [processMessage_intent env sess m intent hm hmap hdet hpay hint]
    exact ⟨rfl, rfl⟩
  · intro env sess m hm hmap hdet hpay hint
    rw [processMessage_ai env sess m hm hmap hdet hpay hint]
    exact ⟨rfl, rfl⟩
  · intro env sess
    rw [processMessage_nomsg env sess]
    exact ⟨rfl, rfl⟩

/-- Witness for C9: a diagnostic turn preserves the session's node, an
option-mapped turn persists the new node. -/
theorem persisted_node_check :
    (persistedNode (processMessage exEnv exSess (some ("ER001".data)) none).2 =
        some startNode ∧
      (processMessage exEnv exSess (some ("ER001".data)) none).1.rtype =
        RType.diagnostic) ∧
    persistedNode
        (processMessage exEnv exSess (some ("wallet related issues".data)) none).2 =
      some walletNode := by
  have hdet : detectErrorCode exEnv.cat ("ER001".data) =
      some (formatErrorResponse exRec1) := by decide
  have hd := persisted_node_spec.2.1 exEnv exSess ("ER001".data)
    (formatErrorResponse exRec1) none (by decide) (by decide) hdet
  have ho := persisted_node_spec.1 exEnv exSess ("wallet related issues".data)
    walletNode none (by decide) (by decide)
  exact ⟨⟨hd.1, hd.2⟩, ho.1⟩

/-- Claim C10: an empty-string utterance with no action behaves exactly like a
missing utterance: no message-gated stage runs, nothing is appended for the
user, and the generator is called with the literal "Hello", the current node
being preserved. -/
theorem empty_message_fallback :
    ∀ (env : Env) (sess : Session),
      processMessage env sess (some []) none = processMessage env sess none none ∧
      processMessage env sess none none =
        (generateAiResponse env.gen sess.sessionId helloMsg,
         [Event.aiGenerate helloMsg,
          Event.sessionUpdate (sess.currentNode.getD startNode),
          Event.historyAppend Role.assistant
            (generateAiResponse env.gen sess.sessionId helloMsg).text]) := by
  intro env sess
  exact ⟨rfl, processMessage_nomsg env sess⟩

theorem aiStage_split (env : Env) (sess : Session) (cur : List Char)
    (msgT : Option (List Char)) :
    ∃ mid n, (aiStage env sess cur msgT).2 = mid ++ [Event.sessionUpdate n] ∧
      ∀ e ∈ mid, isSessionEvent e = false := by
  exact ⟨[Event.aiGenerate (msgT.getD helloMsg)], cur, rfl, by
    intro e he
    rw [List.mem_singleton] at he
    subst he
    rfl⟩

theorem intentStage_split (env : Env) (sess : Session) (cur : List Char)
    (msgT : Option (List Char)) :
    ∃ mid n, (intentStage env sess cur msgT).2 = mid ++ [Event.sessionUpdate n] ∧
      ∀ e ∈ mid, isSessionEvent e = false := by
  match msgT with
  | none => exact aiStage_split env sess cur none
  | some m =>
    match hint : detectIntent m with
    | some intent =>
      refine ⟨[Event.intentDetect m, Event.flowGet (mapIntentToNode intent)],
        mapIntentToNode intent, ?_, ?_⟩
      · simp only [intentStage, hint]
        rfl
      · intro e he
        rcases List.mem_cons.mp he with rfl | he2
        · rfl
        · rw [List.mem_singleton] at he2
          subst he2
          rfl
    | none =>
      obtain ⟨mid, n, hsplit, hmid⟩ := aiStage_split env sess cur (some m)
      refine ⟨Event.intentDetect m :: mid, n, ?_, ?_⟩
      · simp only [intentStage, hint, hsplit]
        rfl
      · intro e he
        rcases List.mem_cons.mp he with rfl | he2
        · rfl
        · exact hmid e he2

theorem actionStage_split (env : Env) (sess : Session) (cur : List Char)
    (msgT acT : Option (List Char)) :
    ∃ mid n, (actionStage env sess cur msgT acT).2 = mid ++ [Event.sessionUpdate n] ∧
      ∀ e ∈ mid, isSessionEvent e = false := by
  match acT with
  | some a =>
    refine ⟨[Event.flowGet a], a, rfl, ?_⟩
    intro e he
    rw [List.mem_singleton] at he
    subst he
    rfl
  | none => exact intentStage_split env sess cur msgT

theorem paymentStage_split (env : Env) (sess : Session) (cur : List Char)
    (msgT acT : Option (List Char)) :
    ∃ mid n, (paymentStage env sess cur msgT acT).2 = mid ++ [Event.sessionUpdate n] ∧
      ∀ e ∈ mid, isSessionEvent e = false := by
  match msgT with
  | none => exact actionStage_split env sess cur none acT
  | some m =>
    by_cases hpay : isPaymentIntent m = true
    · refine ⟨[Event.flowGet walletNode], walletNode, ?_, ?_⟩
      · simp only [paymentStage, hpay, if_pos]
        rfl
      · intro e he
        rw [List.mem_singleton] at he
        subst he
        rfl
    · obtain ⟨mid, n, hsplit, hmid⟩ := actionStage_split env sess cur (some m) acT
      refine ⟨mid, n, ?_, hmid⟩
      simp only [paymentStage, if_neg hpay]
      exact hsplit

theorem diagStage_split (env : Env) (sess : Session) (cur : List Char)
    (msgT acT : Option (List Char)) :
    ∃ mid n, (diagStage env sess cur msgT acT).2 = mid ++ [Event.sessionUpdate n] ∧
      ∀ e ∈ mid, isSessionEvent e = false := by
  match msgT with
  | none => exact paymentStage_split env sess cur none acT
  | some m =>
    match hdet : detectErrorCode env.cat m with
    | some d =>
      refine ⟨[Event.diagnosticDetect m], cur, ?_, ?_⟩
      · simp only [diagStage, hdet]
        rfl
      · intro e he
        rw [List.mem_singleton] at he
        subst he
        rfl
    | none =>
      obtain ⟨mid, n, hsplit, hmid⟩ := paymentStage_split env sess cur (some m) acT
      refine ⟨Event.diagnosticDetect m :: mid, n, ?_, ?_⟩
      · simp only [diagStage, hdet, hsplit]
        rfl
      · intro e he
        rcases List.mem_cons.mp he with rfl | he2
        · rfl
        · exact hmid e he2

theorem optionStage_split (env : Env) (sess : Session) (cur : List Char)
    (msgT acT : Option (List Char)) :
    ∃ mid n, (optionStage env sess cur msgT acT).2 = mid ++ [Event.sessionUpdate n] ∧
      ∀ e ∈ mid, isSessionEvent e = false := by
  match msgT with
  | none => exact diagStage_split env sess cur none acT
  | some m =>
    match hmap : mapOptionToNode m with
    | some n =>
      refine ⟨[Event.flowGet n], n, ?_, ?_⟩
      · simp only [optionStage, hmap]
        rfl
      · intro e he
        rw [List.mem_singleton] at he
        subst he
        rfl
    | none =>
      obtain ⟨mid, n, hsplit, hmid⟩ := diagStage_split env sess cur (some m) acT
      refine ⟨mid, n, ?_, hmid⟩
      simp only [optionStage, hmap]
      exact hsplit

/-- Claim C8 (amended): on every turn, the (truthy) inbound user message is
appended to conversation history FIRST — before any stage is evaluated — then
the stage events run (none of them touching the session collaborator except
the final node persist), and only after the decision is chosen are the
current node persisted and the outbound response text appended as the
assistant history entry, in that order, user message before assistant
response, all before the decision is returned. -/
theorem side_effect_order_spec :
    ∀ (env : Env) (sess : Session) (message ac : Option (List Char)),
      ∃ mid n,
        (processMessage env sess message ac).2 =
          userEvents (truthy message) ++
            (mid ++ [Event.sessionUpdate n,
              Event.historyAppend Role.assistant
                (processMessage env sess message ac).1.text]) ∧
        (∀ e ∈ mid, isSessionEvent e = false) := by
  intro env sess message ac
  obtain ⟨mid, n, hsplit, hmid⟩ :=
    optionStage_split env sess (sess.currentNode.getD startNode) (truthy message)
      (truthy ac)
  refine ⟨mid, n, ?_, hmid⟩
  rw [processMessage, hsplit]
  simp [List.append_assoc]

/-- Counterexample to C8 as stated: in this concrete AI-fallback turn the
user message is appended as the very first event, before the diagnostic,
intent and generator calls on which the decision depends — not after the
decision is chosen. -/
theorem history_order_refute :
    (processMessage exEnvE exSess (some ("zzz".data)) none).2 =
      [Event.historyAppend Role.user ("zzz".data),
       Event.diagnosticDetect ("zzz".data),
       Event.intentDetect ("zzz".data),
       Event.aiGenerate ("zzz".data),
       Event.sessionUpdate startNode,
       Event.historyAppend Role.assistant ("ok".data)] := by
  rw [processMessage_ai exEnvE exSess ("zzz".data) (by decide) (by decide) (by decide)
    zzz_not_payment (by decide)]
  rfl
